import Mathlib

/-!
sockapi-ts, `attacks/ip/bonk.c`: the fragment plan, the payload stubs and the retry loop

A shallow embedding of `create_template` and of the retry section of `main`
from `attacks/ip/bonk.c`.  C `int`
values are `Int`, with `/` and `%` translated to the truncating `Int.tdiv`
and `Int.tmod`; bytes of `buf` are naturals below 256.  The macros
`FRAG_LEN` and `PKT_LEN` are parameters `C` and `L` of the embedded
function, the program's own values being `FRAG_LEN = 512` and
`PKT_LEN = PKT_LEN_of 512`.  Calls into the test-environment library
(allocation, TCP header builder, checksum, template encoder) are the fields
of `tmpl_env`.

The macros stand for integer constants of any size.  The variables `n` and
`i` of `create_template` are 32-bit `int`s: the count assigned to `n` and the
product `i * FRAG_LEN` are wrapped to 32 bits by `to_int`.  A division by a
zero `FRAG_LEN` ends `create_template` at its first statement.  For
`0 < L < INT_MAX` and `0 < C` no value wraps, and for the program's own
values everything is below `2 ^ 17`.  In the statements `/` and `%` are the
integer division and remainder of Lean, which agree with those of C on the
non-negative values the statements are about.
-/

set_option maxRecDepth 100000

namespace Bonk

/-! ## Macros -/

/-- Macro `PKT_NUM`: number of packets for flooding. -/
def PKT_NUM : Int := 1024 * 256

/-- Macro `FRAG_LEN`: length of fragment payload. -/
def FRAG_LEN : Int := 512

/-- Macro `IP_HDR_LEN`: IP header length in bytes. -/
def IP_HDR_LEN : Int := 20

/-- Macro `TCP_HDR_LEN`: TCP header length in bytes. -/
def TCP_HDR_LEN : Int := 20

/-- Macro `PKT_LEN`, as a function of the macro `FRAG_LEN` it mentions:
`(0x1FFF * 8 / FRAG_LEN + 1) * FRAG_LEN`.  The macro body is not wrapped in
parentheses; in each place the source uses it (`PKT_LEN / FRAG_LEN`,
`PKT_LEN % FRAG_LEN`, `PKT_LEN >> 8`, `PKT_LEN & 0xFF`) the product is still
evaluated first, since `*`, `/`, `%` associate to the left and bind tighter
than `>>`, `&` and `==`. -/
def PKT_LEN_of (frag_len : Int) : Int :=
  (Int.tdiv (0x1FFF * 8) frag_len + 1) * frag_len

/-- The value of `PKT_LEN` in the program. -/
def PKT_LEN : Int := PKT_LEN_of FRAG_LEN

/-! ## Data model -/

/-- Types of the payload (`pkt_type`). -/
inductive pkt_type where
  | PKT_UDP
  | PKT_TCP_SYN
  | PKT_TCP_DATA
  | PKT_ICMP
  deriving DecidableEq, Repr

/-- The fragment specification `tapi_ip_frag_spec`, with the fields in the
order of the initialisers in `main`: header offset, real offset, header
length, real length, more-fragments flag, dont-fragment flag, id. -/
structure tapi_ip_frag_spec where
  hdr_offset : Int
  real_offset : Int
  hdr_length : Int
  real_length : Int
  more_frags : Bool
  dont_frag : Bool
  id : Int
  deriving DecidableEq, Repr

/-- C logical negation `!x` of an `int`. -/
def lnot (x : Int) : Int := if x = 0 then 1 else 0

/-- The largest value of a 32-bit `int`. -/
def INT_MAX : Int := 2147483647

/-- The value a 32-bit `int` takes when `x` is stored in it: `x` wrapped into
the range from `-2147483648` to `2147483647`. -/
def to_int (x : Int) : Int := (x + 2147483648) % 4294967296 - 2147483648

/-- The count `n = PKT_LEN / FRAG_LEN + 1 - !(PKT_LEN % FRAG_LEN)` computed
at the start of `create_template` and stored in `int n`.  It is meant for
`FRAG_LEN ≠ 0`: with a zero `FRAG_LEN` the division is undefined and
`create_template` ends there. -/
def frag_count (L C : Int) : Int :=
  to_int (Int.tdiv L C + 1 - lnot (Int.tmod L C))

/-- One pass through the body of the `for` loop of `create_template`: the
assignments made through `tmp` at index `i`; the field `id` is not
written.  The product `i * FRAG_LEN` of the `int` counter is taken in 32
bits; the lengths are the values of the constants.  In the loop
`0 ≤ i < n`, so `n - 1` and `i + 1` do not leave the range of `int`. -/
def loop_body (L C n i : Int) (t : tapi_ip_frag_spec) : tapi_ip_frag_spec :=
  let real_length : Int :=
    if i < n - 1 then C
    else if Int.tmod L C = 0 then C else Int.tmod L C
  { t with
    hdr_offset := to_int (i * C)
    real_offset := to_int (i * C)
    real_length := real_length
    hdr_length := real_length + IP_HDR_LEN
    more_frags := decide (i < n - 1)
    dont_frag := false }

/-- The loop `for (i = 0; i < n; i++) { ...; tmp++; }` of `create_template`
as state passing: the counter `i`, the position `tmp` in the array and the
array `frags`.  The first argument bounds the number of passes; `plan` passes
`n`, which the loop never exceeds.  A write past the end of the array, which
does not occur when `tmp` starts at 0 in an array of `n` elements, ends the
loop. -/
def fill_loop (L C n : Int) :
    Nat → Int → Nat → List tapi_ip_frag_spec → List tapi_ip_frag_spec
  | 0, _, _, frags => frags
  | fuel + 1, i, tmp, frags =>
    if i < n then
      match frags.get? tmp with
      | some t => fill_loop L C n fuel (i + 1) (tmp + 1) (frags.set tmp (loop_body L C n i t))
      | none => frags
    else frags

/-- The fragment array of `create_template` after its loop: `calloc(n, ..)`
followed by `tapi_ip_frag_specs_init` leaves `n` elements equal to `init`,
then the loop fills them starting from `i = 0`, `tmp = frags`. -/
def plan (init : tapi_ip_frag_spec) (L C : Int) : List tapi_ip_frag_spec :=
  let n := frag_count L C
  fill_loop L C n n.toNat 0 0 (List.replicate n.toNat init)

/-- The spec the loop writes at index `i`, in closed form. -/
def spec_at (init : tapi_ip_frag_spec) (L C : Int) (i : Nat) : tapi_ip_frag_spec :=
  loop_body L C (frag_count L C) (i : Int) init

/-! ## The payload stub and the whole of `create_template` -/

/-- Protocol numbers of the system headers. -/
def IPPROTO_ICMP : Nat := 1

/-- Protocol number of TCP. -/
def IPPROTO_TCP : Nat := 6

/-- Protocol number of UDP. -/
def IPPROTO_UDP : Nat := 17

/-- The store `*(uint16_t *)(buf + off) = v`: the two bytes of `v` in the
byte order of the host. -/
def store16 (big_endian : Bool) (buf : List Nat) (off v : Nat) : List Nat :=
  if big_endian then (buf.set off (v / 256 % 256)).set (off + 1) (v % 256)
  else (buf.set off (v % 256)).set (off + 1) (v / 256 % 256)

/-- The read `*(uint16_t *)(buf + off)` in the byte order of the host. -/
def load16 (big_endian : Bool) (buf : List Nat) (off : Nat) : Nat :=
  if big_endian then buf.getD off 0 * 256 + buf.getD (off + 1) 0
  else buf.getD (off + 1) 0 * 256 + buf.getD off 0

/-- A 16-bit field read in network byte order (big-endian), as a receiver
decodes it. -/
def decode_be16 (buf : List Nat) (off : Nat) : Nat :=
  buf.getD off 0 * 256 + buf.getD (off + 1) 0

/-- What `create_template` obtains from outside this file: the file-scope
addresses and connection, the host byte order, and the results of the
library calls.  A port is the `uint16_t` value of `sin_port` as the host
holds it; `none` stands for a non-zero return code. -/
structure tmpl_env where
  host_big_endian : Bool
  tst_addr_port : Nat
  iut_addr_port : Nat
  tst_fake_addr_port : Nat
  next_seqn : Nat
  next_ackn : Nat
  calloc_ok : Int → Bool
  frag_init : tapi_ip_frag_spec
  allocate_port_dst : Option Nat
  allocate_port_src : Option Nat
  tcp_make_msg : Nat → Nat → Nat → Nat → Bool → Bool → List Nat → Option (List Nat)
  calculate_checksum : List Nat → Nat
  ip4_template_rc : List tapi_ip_frag_spec → Int → Int → Nat → List Nat → Int
  add_iterator_rc : Int → Int → Int → Int

/-- The arguments `create_template` hands to `tapi_ip4_template` and
`tapi_tad_add_iterator_for`, which make up the returned template. -/
structure ip4_template where
  fragments : List tapi_ip_frag_spec
  num_frags : Int
  third : Int
  protocol : Nat
  payload : List Nat
  iter_begin : Int
  iter_end : Int
  iter_step : Int
  deriving DecidableEq, Repr

/-- `CHECK_RC(call)`: a non-zero return code fails the test. -/
def CHECK_RC {α : Type} (what : String) : Option α → Except String α
  | some a => Except.ok a
  | none => Except.error what

/-- The size `sizeof(buf)` of the array `char buf[64]`. -/
def BUF_SIZE : Nat := 64

/-- The UDP case of the `switch` in `create_template`. -/
def udp_stub (e : tmpl_env) (L : Int) (buf : List Nat) : List Nat :=
  let buf := store16 e.host_big_endian buf 0 e.tst_addr_port
  let buf := store16 e.host_big_endian buf 2 e.iut_addr_port
  let buf := buf.set 4 (Int.land (Int.shiftRight L 8) 0xFF).toNat
  buf.set 5 (Int.land L 0xFF).toNat

/-- The ICMP case of the `switch` in `create_template`; `~x` of the promoted
checksum is `-x - 1`, cut to 16 bits by the store. -/
def icmp_stub (e : tmpl_env) (buf : List Nat) : List Nat :=
  let buf := List.replicate buf.length 0
  let buf := buf.set 0 8
  let buf := (List.range' 4 (BUF_SIZE - 4)).foldl (fun b i => b.set i i) buf
  store16 e.host_big_endian buf 2
    ((-(e.calculate_checksum buf : Int) - 1) % 65536).toNat

/-- The function `create_template`, with the macros `PKT_LEN` and `FRAG_LEN`
as the parameters `L` and `C`.  An error is the message of the `TEST_FAIL`
that ends the test, or the division by zero in the first statement when
`FRAG_LEN` is zero. -/
def create_template (e : tmpl_env) (L C : Int) (type : pkt_type) :
    Except String ip4_template := do
  let buf : List Nat := List.replicate BUF_SIZE 0
  if C = 0 then
    throw "division by zero"
  let n := frag_count L C
  if !e.calloc_ok n then
    throw "Out of memory"
  let buf ← match type with
    | pkt_type.PKT_TCP_SYN => do
      let dst_port ← CHECK_RC "tapi_allocate_port_htons" e.allocate_port_dst
      let src_port ← CHECK_RC "tapi_allocate_port_htons" e.allocate_port_src
      CHECK_RC "tapi_tcp_make_msg" (e.tcp_make_msg src_port dst_port 0 0 true false buf)
    | pkt_type.PKT_TCP_DATA =>
      CHECK_RC "tapi_tcp_make_msg"
        (e.tcp_make_msg e.tst_fake_addr_port e.iut_addr_port e.next_seqn e.next_ackn
          false false buf)
    | pkt_type.PKT_UDP => pure (udp_stub e L buf)
    | pkt_type.PKT_ICMP => pure (icmp_stub e buf)
  let frags := plan e.frag_init L C
  let proto :=
    if type = pkt_type.PKT_UDP then IPPROTO_UDP
    else if type = pkt_type.PKT_ICMP then IPPROTO_ICMP
    else IPPROTO_TCP
  if e.ip4_template_rc frags n 1 proto buf ≠ 0 then
    throw "tapi_ip4_template() failed"
  if e.add_iterator_rc 1 PKT_NUM 1 ≠ 0 then
    throw "tapi_tad_add_iterator_for() failed"
  return { fragments := frags, num_frags := n, third := 1, protocol := proto,
           payload := buf, iter_begin := 1, iter_end := PKT_NUM, iter_step := 1 }

/-- An environment in which every library call succeeds, on a little-endian
host, with the given ports. -/
def env_ok (src_port dst_port : Nat) : tmpl_env where
  host_big_endian := false
  tst_addr_port := src_port
  iut_addr_port := dst_port
  tst_fake_addr_port := src_port
  next_seqn := 1
  next_ackn := 1
  calloc_ok := fun _ => true
  frag_init := ⟨0, 0, 0, 0, false, false, -1⟩
  allocate_port_dst := some 1
  allocate_port_src := some 2
  tcp_make_msg := fun _ _ _ _ _ _ b => some b
  calculate_checksum := fun _ => 0
  ip4_template_rc := fun _ _ _ _ _ => 0
  add_iterator_rc := fun _ _ _ => 0

/-- Modelled from the spec: `calculate_checksum` of the test-environment
library, whose source is not part of this repository, taken as the folded
one's-complement sum of the 16-bit words of the buffer, each word read in
the byte order of the host, accumulated in 32 bits.  The buffers it is
applied to here have an even length. -/
def ones_complement_sum (big_endian : Bool) (buf : List Nat) : Nat :=
  let words := (List.range (buf.length / 2)).map (fun i => load16 big_endian buf (2 * i))
  let checksum := words.sum % 2 ^ 32
  let checksum := checksum / 65536 + checksum % 65536
  let checksum := checksum + checksum / 65536
  checksum % 65536

/-- An environment in which every library call succeeds and
`calculate_checksum` is the one's-complement sum, for the given byte order
of the host. -/
def env_cksum (big_endian : Bool) : tmpl_env :=
  { env_ok 7 9 with
    host_big_endian := big_endian
    calculate_checksum := ones_complement_sum big_endian }

/-! ## The retry loop of `main` in `attacks/ip/bonk.c` -/

/-- The size `sizeof(tx_buf)` of `char tx_buf[FRAG_LEN * 2 - TCP_HDR_LEN]`;
`rx_buf` has the same size. -/
def TX_BUF_SIZE : Int := FRAG_LEN * 2 - TCP_HDR_LEN

/-- The array `frags` of `main`, the fragment override of the legitimate
segment. -/
def main_frags : List tapi_ip_frag_spec :=
  [ ⟨0, 0, FRAG_LEN + IP_HDR_LEN, FRAG_LEN, true, false, -1⟩,
    ⟨FRAG_LEN, FRAG_LEN, FRAG_LEN + IP_HDR_LEN, FRAG_LEN, false, false, -1⟩ ]

/-- What one pass through the body of the `do ... while` loop meets outside
the program: `tapi_tcp_send_msg` returns non-zero; `iomux_call_default_simple`
returns a negative value, zero (timeout) or a positive value, in which case
`rpc_recv` returns `num` and leaves `rx` in `rx_buf`.  The error of `rpc_recv`
is not awaited (there is no `RPC_AWAIT_ERROR` before it, unlike in
`bnbvalue/pipe_sock_recv.c`), so the RPC library may end the test itself on
a failing receive; the embedding follows the source for any `num` that
reaches `main`, where a negative `num` is retried like a timeout. -/
inductive attempt where
  | send_failed
  | poll_failed
  | timeout
  | readable (num : Int) (rx : List Nat)
  deriving DecidableEq, Repr

/-- The calls of `main`, from the retry loop on, that act on the peer, the
flood sessions or the tracked connection.  `send_msg` is
`tapi_tcp_send_msg(tcp_conn, tx_buf, len, TAPI_TCP_EXPLICIT, seqn,
TAPI_TCP_AUTO, 0, frags, num_frags)` with return code zero; `trsend_stop`
names the flood session by its payload type.  Logging is left out. -/
inductive action where
  | send_msg (len : Int) (seqn : Nat) (frags : Option (List tapi_ip_frag_spec))
      (num_frags : Int)
  | trsend_stop (session : pkt_type)
  | SLEEP (seconds : Nat)
  | update_sent_seq (len : Int)
  deriving DecidableEq, Repr

/-- How the test ends. -/
inductive test_result where
  | TEST_SUCCESS
  | TEST_FAIL (msg : String)
  deriving DecidableEq, Repr

/-- A finished run: the calls made and the result. -/
structure run where
  trace : List action
  result : test_result
  deriving DecidableEq, Repr

/-- The variables of `main` the retry loop works on; `passes` counts the
passes through the loop body made so far and `trace` lists the calls made
so far, oldest first. -/
structure loop_state where
  retries : Int
  num : Int
  rx_buf : List Nat
  again : Bool
  passes : Nat
  trace : List action
  deriving DecidableEq, Repr

/-- Where the `do ... while` loop leaves: through a failing check, through
its condition, or not within the bound on the number of passes. -/
inductive loop_exit where
  | failed (r : run)
  | exited (s : loop_state)
  | out_of_fuel
  deriving DecidableEq, Repr

/-- The parameters of the retry loop: the test parameter `check_frags`, the
sequence number `seqn` read before the loop, the buffer `tx_buf`, the count
the last `rcf_ta_trsend_stop` stores in `num`, and what each pass meets. -/
structure loop_env where
  check_frags : Bool
  seqn : Nat
  tx_buf : List Nat
  stopped : Int
  world : Nat → attempt

/-- The call `tapi_tcp_send_msg(tcp_conn, tx_buf, sizeof(tx_buf),
TAPI_TCP_EXPLICIT, seqn, TAPI_TCP_AUTO, 0, check_frags ? frags : NULL,
check_frags ? 2 : 0)` every pass makes. -/
def the_send (e : loop_env) : action :=
  action.send_msg TX_BUF_SIZE e.seqn (if e.check_frags then some main_frags else none)
    (if e.check_frags then 2 else 0)

/-- The calls of one degrade cycle: the four `rcf_ta_trsend_stop` calls and
`SLEEP(40)`. -/
def degrade_calls : List action :=
  [action.trsend_stop pkt_type.PKT_UDP, action.trsend_stop pkt_type.PKT_TCP_DATA,
   action.trsend_stop pkt_type.PKT_TCP_SYN, action.trsend_stop pkt_type.PKT_ICMP,
   action.SLEEP 40]

/-- One pass through the body of the `do ... while` loop: the send, the
`memset` of `rx_buf`, the poll and the receive, and `retries--`. -/
def loop_pass (e : loop_env) (s : loop_state) : Except run loop_state :=
  match e.world s.passes with
  | attempt.send_failed =>
    Except.error ⟨s.trace, test_result.TEST_FAIL "tapi_tcp_send_msg"⟩
  | attempt.poll_failed =>
    Except.error ⟨s.trace ++ [the_send e], test_result.TEST_FAIL "iomux_call() failed"⟩
  | attempt.timeout =>
    Except.ok { s with trace := s.trace ++ [the_send e], num := -1,
                       rx_buf := List.replicate TX_BUF_SIZE.toNat 0,
                       retries := s.retries - 1, passes := s.passes + 1 }
  | attempt.readable num rx =>
    Except.ok { s with trace := s.trace ++ [the_send e], num := num, rx_buf := rx,
                       retries := s.retries - 1, passes := s.passes + 1 }

/-- The loop `do { ... } while (num < 0 && retries > 0)`; the first argument
bounds the number of passes. -/
def do_while (e : loop_env) : Nat → loop_state → loop_exit
  | 0, _ => loop_exit.out_of_fuel
  | fuel + 1, s =>
    match loop_pass e s with
    | Except.error r => loop_exit.failed r
    | Except.ok s =>
      if s.num < 0 ∧ s.retries > 0 then do_while e fuel s else loop_exit.exited s

/-- The comparison `memcmp(a, b, n)` of the first `n` bytes; only whether the
result is zero is modelled. -/
def memcmp (a b : List Nat) (n : Nat) : Int :=
  if a.take n = b.take n then 0 else 1

/-- The statements of `main` after the retry section, up to
`TEST_SUCCESS`. -/
def after_loop (e : loop_env) (s : loop_state) : run :=
  let trace := s.trace ++ [action.update_sent_seq TX_BUF_SIZE]
  if s.num ≠ TX_BUF_SIZE then
    ⟨trace, test_result.TEST_FAIL "Unexpected number of bytes is received"⟩
  else if memcmp s.rx_buf e.tx_buf TX_BUF_SIZE.toNat ≠ 0 then
    ⟨trace, test_result.TEST_FAIL "Data passed via flooded connection are corrupted"⟩
  else ⟨trace, test_result.TEST_SUCCESS⟩

/-- The code of `main` from the label `again:` on.  The first argument
bounds the number of times the label is reached, the second the passes of
each `do ... while`; `none` is returned when a bound is hit. -/
def from_again (e : loop_env) (inner : Nat) : Nat → loop_state → Option run
  | 0, _ => none
  | fuel + 1, s =>
    let s := { s with retries := 3 }
    match do_while e inner s with
    | loop_exit.out_of_fuel => none
    | loop_exit.failed r => some r
    | loop_exit.exited s =>
      if s.retries = 0 ∧ s.num < 0 then
        if !e.check_frags || s.again then
          some ⟨s.trace, test_result.TEST_FAIL "retries to send message are over"⟩
        else
          from_again e inner fuel
            { s with trace := s.trace ++ degrade_calls, num := e.stopped, again := true }
      else some (after_loop e s)

/-- The retry section of `main` and what follows it: `again` is `FALSE`,
`num` and `retries` are not yet assigned (both are written before they are
read), no pass has been made. -/
def retry_section (e : loop_env) : Option run :=
  from_again e 3 2
    { retries := 0, num := 0, rx_buf := List.replicate TX_BUF_SIZE.toNat 0,
      again := false, passes := 0, trace := [] }

/-- The number of `tapi_tcp_send_msg` transmissions in a trace. -/
def transmissions (t : List action) : Nat :=
  t.countP (fun a => match a with
    | action.send_msg _ _ _ _ => true
    | _ => false)

/-- The number of cooldown waits, one per degrade cycle, in a trace. -/
def degrade_cycles (t : List action) : Nat :=
  t.countP (fun a => match a with
    | action.SLEEP _ => true
    | _ => false)

/-- The number of `rcf_ta_trsend_stop` calls for one flood session. -/
def stops_of (session : pkt_type) (t : List action) : Nat :=
  t.count (action.trsend_stop session)

/-- The lengths passed to `tapi_tcp_update_sent_seq`, in order. -/
def commits : List action → List Int
  | [] => []
  | action.update_sent_seq len :: t => len :: commits t
  | _ :: t => commits t

/-- The sequence numbers carried by the transmissions of a trace, in
order. -/
def sent_seqns : List action → List Nat
  | [] => []
  | action.send_msg _ seqn _ _ :: t => seqn :: sent_seqns t
  | _ :: t => sent_seqns t

/-- Modelled from the spec: the effect of the calls on `next_seq` of the
tracked connection, kept by the test-environment library, which is not part
of this repository (spec, RawTcpSessionTracker): a send with an explicit
sequence number leaves `next_seq` as it is, `commit_sent(len)`, the call
`tapi_tcp_update_sent_seq`, advances it by `len` in 32 bits. -/
def next_seq_after (next_seq : Nat) : List action → Nat
  | [] => next_seq
  | action.update_sent_seq len :: t => next_seq_after ((next_seq + len.toNat) % 2 ^ 32) t
  | _ :: t => next_seq_after next_seq t

/-- The trace of `m` passes, in closed form: the sends, with the degrade
cycle after the third when there are more than three. -/
def trace_of (e : loop_env) (m : Nat) : List action :=
  if m ≤ 3 then List.replicate m (the_send e)
  else List.replicate 3 (the_send e) ++ degrade_calls ++ List.replicate (m - 3) (the_send e)

/-- The integrity check after the loop, in closed form. -/
def integrity (e : loop_env) (num : Int) (rx : List Nat) : test_result :=
  if num ≠ 1004 then test_result.TEST_FAIL "Unexpected number of bytes is received"
  else if rx.take 1004 ≠ e.tx_buf.take 1004 then
    test_result.TEST_FAIL "Data passed via flooded connection are corrupted"
  else test_result.TEST_SUCCESS

/-- The bound on the number of passes: six with `check_frags`, else three. -/
def cap (check_frags : Bool) : Nat := if check_frags then 6 else 3

/-- A pass the loop retries: it leaves `num` negative, either because the
poll timed out or because the poll was readable and the receive returned a
negative value. -/
def retried : attempt → Bool
  | attempt.timeout => true
  | attempt.readable num _ => decide (num < 0)
  | _ => false

/-- A pass whose poll was readable and whose receive returned a count. -/
def received : attempt → Bool
  | attempt.readable num _ => decide (0 ≤ num)
  | _ => false

end Bonk

/-!
sockapi-ts, `bnbvalue/pipe_sock_recv.c`

A shallow embedding of `main` of `bnbvalue/pipe_sock_recv.c`: what the RPC
calls return is given by `pipe_env`, the result is the list of verdicts and
whether the test passed.  `TEST_VERDICT` logs a verdict and stops the test
with a failure, `ERROR_VERDICT` and `RING_VERDICT` only log a verdict,
`TEST_STOP` stops the test with a failure.
-/

namespace PipeSockRecv

/-- Macro `BUF_SIZE`. -/
def BUF_SIZE : Int := 1024

/-- The value of `RPC_ERRNO(pco_iut)` after the awaited call. -/
inductive rpc_errno where
  | RPC_ENOTSOCK
  | other (code : Nat)
  deriving DecidableEq, Repr

/-- What `main` obtains from outside: the name of the tested function, the
buffers made by `te_make_buf_by_len` (`none` is `NULL`), the result of
`rpc_write`, the liveness of the RPC server, the result of the receiving
function with the content it leaves in `rx_buf`, and the error number with
its printed form. -/
structure pipe_env where
  func_name : String
  tx_buf : Option (List Nat)
  rx_made : Bool
  sent : Int
  alive : Bool
  received : Int
  rx_buf : List Nat
  errno : rpc_errno
  errno_text : String

/-- The end of the test: the verdicts logged, in order, and whether
`TEST_SUCCESS` was reached. -/
structure outcome where
  verdicts : List String
  passed : Bool
  deriving DecidableEq, Repr

/-- The comparison `memcmp(a, b, n)` of the first `n` bytes; only whether the
result is zero is modelled. -/
def memcmp (a b : List Nat) (n : Nat) : Int :=
  if a.take n = b.take n then 0 else 1

/-- The function `main` of `bnbvalue/pipe_sock_recv.c`. -/
def main (e : pipe_env) : outcome :=
  match e.tx_buf with
  | none => ⟨[], false⟩
  | some tx_buf =>
    if !e.rx_made then ⟨[], false⟩
    else if e.sent ≠ BUF_SIZE then ⟨["Failed to write all the data to a pipe"], false⟩
    else if !e.alive then
      ⟨["RPC server is dead as a result of " ++ e.func_name
          ++ "() call on the read end of pipe"], false⟩
    else
      let finish (verdicts : List String) (is_failed : Bool) : outcome :=
        if is_failed then ⟨verdicts, false⟩ else ⟨verdicts, true⟩
      if e.received ≥ 0 then
        let verdicts := [e.func_name ++ "() successeed on the read end of pipe"]
        let is_failed := true
        if e.received = 0 then finish (verdicts ++ ["No data was read"]) is_failed
        else if e.received ≠ BUF_SIZE then
          ⟨verdicts ++ [(if e.sent < BUF_SIZE then "less" else "greater")
              ++ " than expected was read"], false⟩
        else if memcmp tx_buf e.rx_buf BUF_SIZE.toNat ≠ 0 then
          ⟨verdicts ++ ["Incorrect data was read"], false⟩
        else finish verdicts is_failed
      else if e.errno ≠ rpc_errno.RPC_ENOTSOCK then
        finish [e.func_name ++ "() on the read end of pipe failed with unexpected errno "
          ++ e.errno_text] false
      else finish [] false

/-- An environment in which the write is complete, the server stays alive
and the receiving function returns `received` with error number `errno`. -/
def env_of (received : Int) (errno : rpc_errno) (rx : List Nat) : pipe_env where
  func_name := "recv"
  tx_buf := some (List.replicate 1024 5)
  rx_made := true
  sent := 1024
  alive := true
  received := received
  rx_buf := rx
  errno := errno
  errno_text := "RPC-EBADF"

end PipeSockRecv

namespace Bonk

/-! ## Helper lemmas: the loop in closed form -/

theorem fill_loop_closed (init : tapi_ip_frag_spec) (L C n : Int) :
    ∀ (fuel k : Nat), ((k + fuel : Nat) : Int) = n →
      fill_loop L C n fuel (k : Int) k
          ((List.range k).map (fun (j : Nat) => loop_body L C n (j : Int) init)
            ++ List.replicate fuel init)
        = (List.range (k + fuel)).map (fun (j : Nat) => loop_body L C n (j : Int) init) := by
  intro fuel
  induction fuel with
  | zero => intro k _; simp [fill_loop]
  | succ f ih =>
    intro k hk
    have hlt : (k : Int) < n := by rw [← hk]; push_cast; omega
    have hget : ((List.range k).map (fun (j : Nat) => loop_body L C n (j : Int) init)
            ++ List.replicate (f + 1) init).get? k = some init := by
      rw [List.get?_eq_getElem?, List.getElem?_append_right (by simp)]
      simp [List.replicate_succ]
    have hset : ((List.range k).map (fun (j : Nat) => loop_body L C n (j : Int) init)
            ++ List.replicate (f + 1) init).set k (loop_body L C n (k : Int) init)
        = (List.range (k + 1)).map (fun (j : Nat) => loop_body L C n (j : Int) init)
            ++ List.replicate f init := by
      rw [List.set_append_right _ _ (by simp)]
      simp [List.replicate_succ, List.range_succ]
    rw [fill_loop, if_pos hlt, hget]
    simp only
    rw [hset]
    have := ih (k + 1) (by rw [← hk]; push_cast; omega)
    rw [show k + (f + 1) = k + 1 + f by omega]
    rw [← this]
    push_cast
    rfl

theorem plan_closed (init : tapi_ip_frag_spec) (L C : Int) :
    plan init L C = (List.range (frag_count L C).toNat).map (spec_at init L C) := by
  unfold plan
  by_cases hn : 0 ≤ frag_count L C
  · have h := fill_loop_closed init L C (frag_count L C) (frag_count L C).toNat 0
      (by simp [Int.toNat_of_nonneg hn])
    simpa [spec_at] using h
  · have h0 : (frag_count L C).toNat = 0 := by
      rw [Int.toNat_eq_zero]; omega
    simp [h0, fill_loop]

theorem plan_length (init : tapi_ip_frag_spec) (L C : Int) :
    (plan init L C).length = (frag_count L C).toNat := by
  simp [plan_closed]

theorem plan_get (init : tapi_ip_frag_spec) (L C : Int) (i : Nat)
    (h : i < (plan init L C).length) :
    (plan init L C).get ⟨i, h⟩ = spec_at init L C i := by
  simp [plan_closed]

/-! ## Helper lemmas: arithmetic of the count -/

theorem tdiv_of_pos {L C : Int} (hL : 0 < L) (hC : 0 < C) : Int.tdiv L C = L / C :=
  Int.tdiv_eq_ediv (le_of_lt hL) (le_of_lt hC)

theorem tmod_of_pos {L C : Int} (hL : 0 < L) (hC : 0 < C) : Int.tmod L C = L % C :=
  Int.tmod_eq_emod (le_of_lt hL) (le_of_lt hC)

theorem to_int_eq {x : Int} (h1 : -2147483648 ≤ x) (h2 : x ≤ 2147483647) : to_int x = x := by
  unfold to_int
  omega

theorem quot_lt_of_lt {L C : Int} (hL : 0 < L) (_hC : 0 < C) (hb : L < INT_MAX) :
    L / C < 2147483647 := by
  have h1 : L / C ≤ L := Int.ediv_le_self C (le_of_lt hL)
  unfold INT_MAX at hb
  omega

theorem frag_count_eq {L C : Int} (hL : 0 < L) (hC : 0 < C) (hq : L / C < 2147483647) :
    frag_count L C = if L % C = 0 then L / C else L / C + 1 := by
  have hq0 : 0 ≤ L / C := Int.ediv_nonneg (le_of_lt hL) (le_of_lt hC)
  unfold frag_count lnot
  rw [tdiv_of_pos hL hC, tmod_of_pos hL hC]
  split
  · rw [to_int_eq (by omega) (by omega)]
    omega
  · rw [to_int_eq (by omega) (by omega)]
    omega

theorem frag_count_bounds {L C : Int} (hL : 0 < L) (hC : 0 < C) (hq : L / C < 2147483647) :
    1 ≤ frag_count L C ∧ (frag_count L C - 1) * C < L ∧ L ≤ frag_count L C * C := by
  have h1 : L % C + C * (L / C) = L := Int.emod_add_ediv L C
  have h2 : 0 ≤ L % C := Int.emod_nonneg L (ne_of_gt hC)
  have h3 : L % C < C := Int.emod_lt_of_pos L hC
  have hq0 : 0 ≤ L / C := Int.ediv_nonneg (le_of_lt hL) (le_of_lt hC)
  rw [frag_count_eq hL hC hq]
  split
  · rename_i h0
    have hq1 : 1 ≤ L / C := by
      by_contra hc
      have : L / C = 0 := by omega
      rw [this, h0] at h1
      omega
    refine ⟨hq1, ?_, ?_⟩ <;> nlinarith
  · rename_i h0
    have : 0 < L % C := lt_of_le_of_ne h2 (Ne.symm h0)
    refine ⟨by omega, ?_, ?_⟩ <;> nlinarith

/-- The value the loop stores as the last fragment's `real_length`. -/
theorem last_real_length {L C : Int} (hL : 0 < L) (hC : 0 < C) (hq : L / C < 2147483647) :
    (if Int.tmod L C = 0 then C else Int.tmod L C) = L - (frag_count L C - 1) * C := by
  have h1 : L % C + C * (L / C) = L := Int.emod_add_ediv L C
  rw [frag_count_eq hL hC hq, tmod_of_pos hL hC]
  split
  · rename_i h0
    rw [h0] at h1
    linarith
  · linarith

theorem spec_at_real_length (init : tapi_ip_frag_spec) (L C : Int) (i : Nat) :
    (spec_at init L C i).real_length =
      if (i : Int) < frag_count L C - 1 then C
      else if Int.tmod L C = 0 then C else Int.tmod L C := rfl

theorem sum_map_range_const (f : Nat → Int) (c : Int) :
    ∀ m : Nat, (∀ i, i < m → f i = c) → ((List.range m).map f).sum = (m : Int) * c := by
  intro m
  induction m with
  | zero => intro _; simp
  | succ k ih =>
    intro h
    rw [List.range_succ, List.map_append, List.sum_append, ih (fun i hi => h i (by omega)),
      List.map_singleton, List.sum_singleton, h k (by omega)]
    push_cast
    ring

theorem plan_getLast (init : tapi_ip_frag_spec) (L C : Int) (h : 1 ≤ frag_count L C) :
    (plan init L C).getLast?
      = some (spec_at init L C ((frag_count L C).toNat - 1)) := by
  obtain ⟨m, hm⟩ : ∃ m : Nat, (frag_count L C).toNat = m + 1 :=
    ⟨(frag_count L C).toNat - 1, by omega⟩
  rw [plan_closed, hm, List.range_succ, List.map_append, List.map_singleton,
    List.getLast?_append]
  simp

/-! ## Helper lemmas: the program's dimensions -/

theorem PKT_LEN_of_eq {F : Int} (hF : 0 < F) : PKT_LEN_of F = (65528 / F + 1) * F := by
  unfold PKT_LEN_of
  rw [show (0x1FFF * 8 : Int) = 65528 by norm_num, Int.tdiv_eq_ediv (by norm_num) (le_of_lt hF)]

theorem PKT_LEN_of_pos {F : Int} (hF : 0 < F) : 0 < PKT_LEN_of F := by
  rw [PKT_LEN_of_eq hF]
  have : 0 ≤ (65528 : Int) / F := Int.ediv_nonneg (by norm_num) (le_of_lt hF)
  positivity

theorem frag_count_PKT_LEN_of {F : Int} (hF : 0 < F) :
    frag_count (PKT_LEN_of F) F = 65528 / F + 1 := by
  have hq : PKT_LEN_of F / F < 2147483647 := by
    have h1 : (65528 : Int) / F ≤ 65528 := Int.ediv_le_self F (by norm_num)
    rw [PKT_LEN_of_eq hF, Int.mul_ediv_cancel _ (ne_of_gt hF)]
    omega
  rw [frag_count_eq (PKT_LEN_of_pos hF) hF hq, PKT_LEN_of_eq hF,
    if_pos (Int.mul_emod_left _ _), Int.mul_ediv_cancel _ (ne_of_gt hF)]

theorem PKT_LEN_val : PKT_LEN = 65536 := by decide

theorem frag_count_program : frag_count PKT_LEN FRAG_LEN = 128 := by decide

theorem spec_at_real_offset (init : tapi_ip_frag_spec) (L C : Int) (i : Nat)
    (h0 : 0 ≤ (i : Int) * C) (h1 : (i : Int) * C ≤ 2147483647) :
    (spec_at init L C i).real_offset = (i : Int) * C :=
  to_int_eq (by omega) h1

theorem spec_at_hdr_offset (init : tapi_ip_frag_spec) (L C : Int) (i : Nat)
    (h0 : 0 ≤ (i : Int) * C) (h1 : (i : Int) * C ≤ 2147483647) :
    (spec_at init L C i).hdr_offset = (i : Int) * C :=
  to_int_eq (by omega) h1

theorem plan_getElem? (init : tapi_ip_frag_spec) (L C : Int) (i : Nat)
    (h : i < (frag_count L C).toNat) :
    (plan init L C)[i]? = some (spec_at init L C i) := by
  rw [plan_closed, List.getElem?_map, List.getElem?_range h]
  rfl

theorem index_offset_bounds {L C : Int} (hL : 0 < L) (hC : 0 < C) (hb : L < INT_MAX)
    (i : Nat) (hi : (i : Int) < frag_count L C) :
    0 ≤ (i : Int) * C ∧ (i : Int) * C ≤ 2147483647 := by
  obtain ⟨_, h2, _⟩ := frag_count_bounds hL hC (quot_lt_of_lt hL hC hb)
  have h0 : 0 ≤ (i : Int) * C := mul_nonneg (Int.ofNat_nonneg i) (le_of_lt hC)
  have hle : (i : Int) * C ≤ (frag_count L C - 1) * C :=
    mul_le_mul_of_nonneg_right (by omega) (le_of_lt hC)
  unfold INT_MAX at hb
  exact ⟨h0, by omega⟩

theorem udp_len_bytes :
    (Int.land (Int.shiftRight PKT_LEN 8) 0xFF).toNat = 0
      ∧ (Int.land PKT_LEN 0xFF).toNat = 0 := by decide

theorem udp_stub_eq (e : tmpl_env) :
    udp_stub e PKT_LEN (List.replicate BUF_SIZE 0)
      = (if e.host_big_endian then
          [e.tst_addr_port / 256 % 256, e.tst_addr_port % 256,
           e.iut_addr_port / 256 % 256, e.iut_addr_port % 256]
         else
          [e.tst_addr_port % 256, e.tst_addr_port / 256 % 256,
           e.iut_addr_port % 256, e.iut_addr_port / 256 % 256])
        ++ List.replicate 60 0 := by
  unfold udp_stub store16
  rw [udp_len_bytes.1, udp_len_bytes.2]
  cases e.host_big_endian <;> rfl

/-! ## The fragment plan -/

/-- C1, as the claim states it, fails: for `L = 68719476784` and `C = 16`,
where `C` divides `L` and `L / C` is `4294967299`, the count stored in
`int n` is 3. -/
theorem frag_count_truncated :
    (0 : Int) < 68719476784 ∧ (0 : Int) < 16
      ∧ (68719476784 : Int) % 16 = 0
      ∧ (68719476784 : Int) / 16 = 4294967299
      ∧ frag_count 68719476784 16 = 3 := by
  decide

/-- C1, amended. For every logical length `L` with `0 < L < INT_MAX` and
every chunk size `C > 0` the count `n = L / C + 1 - !(L % C)` of
`create_template` is the ceiling of `L / C`: it is `L / C` when `C` divides
`L` and `L / C + 1` otherwise, and it is the number of specs in the plan. -/
theorem frag_count_is_ceil (init : tapi_ip_frag_spec) (L C : Int) (hL : 0 < L) (hC : 0 < C)
    (hb : L < INT_MAX) :
    frag_count L C = ⌈(L : ℚ) / (C : ℚ)⌉
      ∧ (L % C = 0 → frag_count L C = L / C)
      ∧ (L % C ≠ 0 → frag_count L C = L / C + 1)
      ∧ ((plan init L C).length : Int) = frag_count L C := by
  have hq := quot_lt_of_lt hL hC hb
  obtain ⟨h1, h2, h3⟩ := frag_count_bounds hL hC hq
  have hCq : (0 : ℚ) < (C : ℚ) := by exact_mod_cast hC
  refine ⟨?_, ?_, ?_, ?_⟩
  · symm
    rw [Int.ceil_eq_iff]
    constructor
    · rw [lt_div_iff₀ hCq]
      exact_mod_cast h2
    · rw [div_le_iff₀ hCq]
      exact_mod_cast h3
  · intro h0
    rw [frag_count_eq hL hC hq, if_pos h0]
  · intro h0
    rw [frag_count_eq hL hC hq, if_neg h0]
  · rw [plan_length]
    exact Int.toNat_of_nonneg (by omega)

theorem frag_count_is_ceil_witness :
    (0 : Int) < 1300 ∧ (0 : Int) < 512 ∧ (1300 : Int) < INT_MAX
      ∧ frag_count 1300 512 = ⌈((1300 : Int) : ℚ) / ((512 : Int) : ℚ)⌉
      ∧ ((1300 : Int) % 512 = 0 → frag_count 1300 512 = 1300 / 512)
      ∧ ((1300 : Int) % 512 ≠ 0 → frag_count 1300 512 = 1300 / 512 + 1)
      ∧ ((plan ⟨0, 0, 0, 0, false, false, -1⟩ 1300 512).length : Int) = frag_count 1300 512 :=
  ⟨by decide, by decide, by decide,
    frag_count_is_ceil ⟨0, 0, 0, 0, false, false, -1⟩ 1300 512 (by decide) (by decide)
      (by decide)⟩

/-- C2, as the claim states it, fails: for `L = 68719476784` and `C = 16`
the loop fills 3 specs and their `real_length` values add up to 48. -/
theorem plan_sum_truncated :
    (0 : Int) < 68719476784 ∧ (0 : Int) < 16
      ∧ ((plan ⟨0, 0, 0, 0, false, false, -1⟩ 68719476784 16).map
          (fun s => s.real_length)).sum = 48 := by
  decide

/-- C2, amended. For every `L` with `0 < L < INT_MAX` and every `C > 0` the
`real_length` values of the specs filled by the loop of `create_template`
add up to the logical length `L`. -/
theorem plan_real_length_sum (init : tapi_ip_frag_spec) (L C : Int) (hL : 0 < L) (hC : 0 < C)
    (hb : L < INT_MAX) :
    ((plan init L C).map (fun s => s.real_length)).sum = L := by
  have hq := quot_lt_of_lt hL hC hb
  obtain ⟨h1, _, _⟩ := frag_count_bounds hL hC hq
  obtain ⟨m, hm⟩ : ∃ m : Nat, (frag_count L C).toNat = m + 1 :=
    ⟨(frag_count L C).toNat - 1, by omega⟩
  have hn : frag_count L C = (m : Int) + 1 := by omega
  rw [plan_closed, hm, List.range_succ, List.map_append, List.map_append, List.sum_append,
    List.map_map, sum_map_range_const _ C m]
  · simp only [List.map_singleton, List.sum_singleton, spec_at_real_length]
    rw [if_neg (by omega), last_real_length hL hC hq, hn]
    ring
  · intro i hi
    simp only [Function.comp, spec_at_real_length]
    rw [if_pos (by omega)]

theorem plan_real_length_sum_witness :
    (0 : Int) < 1300 ∧ (0 : Int) < 512 ∧ (1300 : Int) < INT_MAX
      ∧ ((plan ⟨0, 0, 0, 0, false, false, -1⟩ 1300 512).map (fun s => s.real_length)).sum = 1300 :=
  ⟨by decide, by decide, by decide,
    plan_real_length_sum ⟨0, 0, 0, 0, false, false, -1⟩ 1300 512 (by decide) (by decide)
      (by decide)⟩

/-- C3, as the claim states it, fails: for `L = 68719476736` and `C = 16`
the count stored in `int n` is 0, the plan is empty and no spec has
`more_frags = false`. -/
theorem plan_empty_when_truncated :
    (0 : Int) < 68719476736 ∧ (0 : Int) < 16
      ∧ frag_count 68719476736 16 = 0
      ∧ plan ⟨0, 0, 0, 0, false, false, -1⟩ 68719476736 16 = []
      ∧ (plan ⟨0, 0, 0, 0, false, false, -1⟩ 68719476736 16).countP
          (fun s => !s.more_frags) = 0 := by
  decide

/-- C3, amended. For every `L` with `0 < L < INT_MAX` and every `C > 0` the
plan is not empty, a spec has `more_frags = false` exactly when it is the
last one, every spec before the last has `more_frags = true`, and so exactly
one spec has the flag clear. -/
theorem plan_more_frags (init : tapi_ip_frag_spec) (L C : Int) (hL : 0 < L) (hC : 0 < C)
    (hb : L < INT_MAX) :
    0 < (plan init L C).length
      ∧ (∀ (i : Nat) (h : i < (plan init L C).length),
          (((plan init L C).get ⟨i, h⟩).more_frags = false ↔ i + 1 = (plan init L C).length)
          ∧ (i + 1 < (plan init L C).length →
              ((plan init L C).get ⟨i, h⟩).more_frags = true))
      ∧ (plan init L C).countP (fun s => !s.more_frags) = 1 := by
  obtain ⟨h1, _, _⟩ := frag_count_bounds hL hC (quot_lt_of_lt hL hC hb)
  have hlen := plan_length init L C
  have hflag : ∀ i : Nat, (spec_at init L C i).more_frags
      = decide ((i : Int) < frag_count L C - 1) := fun _ => rfl
  refine ⟨by omega, ?_, ?_⟩
  · intro i h
    rw [plan_get, hflag]
    constructor
    · rw [decide_eq_false_iff_not]
      omega
    · intro h2
      rw [decide_eq_true_iff]
      omega
  · obtain ⟨m, hm⟩ : ∃ m : Nat, (frag_count L C).toNat = m + 1 :=
      ⟨(frag_count L C).toNat - 1, by omega⟩
    rw [plan_closed, hm, List.range_succ, List.map_append, List.countP_append,
      List.countP_eq_zero.mpr]
    · simp only [List.map_singleton, List.countP_singleton, hflag]
      rw [decide_eq_false (by omega)]
      rfl
    · intro s hs
      obtain ⟨i, hi, rfl⟩ := List.mem_map.mp hs
      rw [List.mem_range] at hi
      rw [hflag, decide_eq_true (by omega)]
      decide

theorem plan_more_frags_witness :
    (0 : Int) < 1300 ∧ (0 : Int) < 512 ∧ (1300 : Int) < INT_MAX
      ∧ 0 < (plan ⟨0, 0, 0, 0, false, false, -1⟩ 1300 512).length
      ∧ (plan ⟨0, 0, 0, 0, false, false, -1⟩ 1300 512).countP (fun s => !s.more_frags) = 1 :=
  have h := plan_more_frags ⟨0, 0, 0, 0, false, false, -1⟩ 1300 512 (by decide) (by decide)
    (by decide)
  ⟨by decide, by decide, by decide, h.1, h.2.2⟩

/-- C4, as the claim states it, fails: for `L = 68719476784` and `C = 16`
the count is 3 and the last spec has `real_length = 16`, which is not
`L - (n - 1) * C`. -/
theorem plan_last_size_truncated :
    (0 : Int) < 68719476784 ∧ (0 : Int) < 16
      ∧ frag_count 68719476784 16 = 3
      ∧ (plan ⟨0, 0, 0, 0, false, false, -1⟩ 68719476784 16).getLast?.map
          (fun s => s.real_length) = some 16
      ∧ (68719476784 : Int) - (frag_count 68719476784 16 - 1) * 16 ≠ 16 := by
  decide

/-- C4, amended. For every `L` with `0 < L < INT_MAX` and every `C > 0`
every spec before the last has `real_length = C`; the last has
`real_length = L - (n - 1) * C`, which is `L mod C` when that is not zero
and `C` when it is; and every `real_length` lies in `1 .. C`. -/
theorem plan_fragment_sizes (init : tapi_ip_frag_spec) (L C : Int) (hL : 0 < L) (hC : 0 < C)
    (hb : L < INT_MAX) :
    ∀ (i : Nat) (h : i < (plan init L C).length),
      (i + 1 < (plan init L C).length → ((plan init L C).get ⟨i, h⟩).real_length = C)
      ∧ (i + 1 = (plan init L C).length →
          ((plan init L C).get ⟨i, h⟩).real_length = L - (frag_count L C - 1) * C
          ∧ (L % C ≠ 0 → ((plan init L C).get ⟨i, h⟩).real_length = L % C)
          ∧ (L % C = 0 → ((plan init L C).get ⟨i, h⟩).real_length = C))
      ∧ 0 < ((plan init L C).get ⟨i, h⟩).real_length
      ∧ ((plan init L C).get ⟨i, h⟩).real_length ≤ C := by
  intro i h
  have hq := quot_lt_of_lt hL hC hb
  obtain ⟨h1, _, _⟩ := frag_count_bounds hL hC hq
  have hlen := plan_length init L C
  have h2 : 0 ≤ L % C := Int.emod_nonneg L (ne_of_gt hC)
  have h3 : L % C < C := Int.emod_lt_of_pos L hC
  have hmod := tmod_of_pos hL hC
  rw [plan_get, spec_at_real_length]
  refine ⟨?_, ?_, ?_, ?_⟩
  · intro hi
    rw [if_pos (by omega)]
  · intro hi
    rw [if_neg (by omega)]
    refine ⟨last_real_length hL hC hq, ?_, ?_⟩
    · intro h0
      rw [hmod, if_neg h0]
    · intro h0
      rw [hmod, if_pos h0]
  · rw [hmod]
    split_ifs <;> omega
  · rw [hmod]
    split_ifs <;> omega

theorem plan_fragment_sizes_witness :
    (0 : Int) < 1300 ∧ (0 : Int) < 512 ∧ (1300 : Int) < INT_MAX
      ∧ ((plan ⟨0, 0, 0, 0, false, false, -1⟩ 1300 512).get ⟨2, by decide⟩).real_length ≤ 512 :=
  ⟨by decide, by decide, by decide,
    (plan_fragment_sizes ⟨0, 0, 0, 0, false, false, -1⟩ 1300 512 (by decide) (by decide)
      (by decide) 2 (by decide)).2.2.2⟩

/-- C5, as the claim states it, fails: for `L = 8589934592` and
`C = 1048576` the count is 8192 and the spec at index 4096 has
`hdr_offset = real_offset = 0`, the 32-bit product, not `4096 * C`; it
starts at the offset of the spec at index 0. -/
theorem plan_offset_wrapped :
    (0 : Int) < 8589934592 ∧ (0 : Int) < 1048576
      ∧ frag_count 8589934592 1048576 = 8192
      ∧ (plan ⟨0, 0, 0, 0, false, false, -1⟩ 8589934592 1048576)[4096]?.map
          (fun s => (s.hdr_offset, s.real_offset)) = some (0, 0)
      ∧ (plan ⟨0, 0, 0, 0, false, false, -1⟩ 8589934592 1048576)[0]?.map
          (fun s => (s.hdr_offset, s.real_offset)) = some (0, 0)
      ∧ ((4096 : Nat) : Int) * 1048576 ≠ 0 := by
  have hn : frag_count 8589934592 1048576 = 8192 := by decide
  refine ⟨by decide, by decide, hn, ?_, ?_, by decide⟩
  · rw [plan_getElem? _ _ _ _ (by rw [hn]; decide)]
    decide
  · rw [plan_getElem? _ _ _ _ (by rw [hn]; decide)]
    decide

/-- C5, amended. For every `L` with `0 < L < INT_MAX`, every `C > 0` and
every index `i` of the plan, the `i`-th spec has
`hdr_offset = real_offset = i * C`, `hdr_length = real_length + 20` and
`dont_frag = false`; the next spec starts where this one ends, at a
strictly larger offset. -/
theorem plan_offsets (init : tapi_ip_frag_spec) (L C : Int) (hL : 0 < L) (hC : 0 < C)
    (hb : L < INT_MAX) :
    ∀ (i : Nat) (h : i < (plan init L C).length),
      ((plan init L C).get ⟨i, h⟩).hdr_offset = (i : Int) * C
      ∧ ((plan init L C).get ⟨i, h⟩).real_offset = (i : Int) * C
      ∧ ((plan init L C).get ⟨i, h⟩).hdr_length
          = ((plan init L C).get ⟨i, h⟩).real_length + 20
      ∧ ((plan init L C).get ⟨i, h⟩).dont_frag = false
      ∧ ∀ (h2 : i + 1 < (plan init L C).length),
          ((plan init L C).get ⟨i + 1, h2⟩).real_offset
            = ((plan init L C).get ⟨i, h⟩).real_offset
              + ((plan init L C).get ⟨i, h⟩).real_length
          ∧ ((plan init L C).get ⟨i, h⟩).real_offset
              < ((plan init L C).get ⟨i + 1, h2⟩).real_offset := by
  intro i h
  have hlen := plan_length init L C
  have hoff : ∀ j : Nat, j < (plan init L C).length →
      (spec_at init L C j).real_offset = (j : Int) * C := by
    intro j hj
    obtain ⟨hj0, hj1⟩ := index_offset_bounds hL hC hb j (by omega)
    exact spec_at_real_offset init L C j hj0 hj1
  obtain ⟨hi0, hi1⟩ := index_offset_bounds hL hC hb i (by omega)
  refine ⟨?_, ?_, ?_, ?_, ?_⟩
  · rw [plan_get]; exact spec_at_hdr_offset init L C i hi0 hi1
  · rw [plan_get]; exact hoff i h
  · rw [plan_get]; rfl
  · rw [plan_get]; rfl
  · intro h2
    rw [plan_get, plan_get, hoff _ h2, hoff _ h, spec_at_real_length, if_pos (by omega)]
    push_cast
    constructor
    · ring
    · linarith

theorem plan_offsets_witness :
    (0 : Int) < 1300 ∧ (0 : Int) < 512 ∧ (1300 : Int) < INT_MAX
      ∧ ((plan ⟨0, 0, 0, 0, false, false, -1⟩ 1300 512).get ⟨2, by decide⟩).hdr_offset
          = ((2 : Nat) : Int) * 512 :=
  ⟨by decide, by decide, by decide,
    (plan_offsets ⟨0, 0, 0, 0, false, false, -1⟩ 1300 512 (by decide) (by decide)
      (by decide) 2 (by decide)).1⟩

/-! ## The dimensions of the scenario -/

/-- C6, as the spec states it, fails: the logical length of the program is
not 131584 and its plan does not have 257 fragments. -/
theorem spec_scenario_refuted :
    PKT_LEN ≠ 131584 ∧ FRAG_LEN = 512
      ∧ (plan ⟨0, 0, 0, 0, false, false, -1⟩ PKT_LEN FRAG_LEN).length ≠ 257 := by
  refine ⟨by decide, by decide, ?_⟩
  rw [plan_length, frag_count_program]
  decide

/-- C6, amended. In the bonk scenario the logical length is `L = 65536` and
the chunk size is `C = 512`; the plan built by `create_template` has 128
fragments, every one of `real_length` 512, with `more_frags = true` on all
but the last. -/
theorem scenario_dimensions (init : tapi_ip_frag_spec) :
    PKT_LEN = 65536 ∧ FRAG_LEN = 512
      ∧ frag_count PKT_LEN FRAG_LEN = 128
      ∧ (plan init PKT_LEN FRAG_LEN).length = 128
      ∧ (plan init PKT_LEN FRAG_LEN).map (fun s => s.real_length) = List.replicate 128 512
      ∧ (plan init PKT_LEN FRAG_LEN).map (fun s => s.more_frags)
          = List.replicate 127 true ++ [false] := by
  refine ⟨by decide, by decide, by decide, ?_, ?_, ?_⟩
  · rw [plan_length, frag_count_program]; rfl
  · rw [plan_closed, List.map_map, frag_count_program]
    have hf : ((fun s => s.real_length) ∘ spec_at init PKT_LEN FRAG_LEN)
        = fun (i : Nat) => if (i : Int) < 127 then 512 else 512 := by
      funext i
      simp only [Function.comp, spec_at_real_length, frag_count_program]
      rfl
    rw [hf]
    simp only [ite_self]
    rfl
  · rw [plan_closed, List.map_map, frag_count_program]
    have hf : ((fun s => s.more_frags) ∘ spec_at init PKT_LEN FRAG_LEN)
        = fun (i : Nat) => decide ((i : Int) < 127) := by
      funext i
      show decide ((i : Int) < frag_count PKT_LEN FRAG_LEN - 1) = _
      rw [frag_count_program]
      rfl
    rw [hf]
    decide

/-- C7. For every `FRAG_LEN` that is a positive multiple of 8, the
reassembled length `PKT_LEN = (0x1FFF * 8 / FRAG_LEN + 1) * FRAG_LEN` is the
end of the last fragment of the plan, is an exact multiple of `FRAG_LEN` and
is greater than 65535; for the program's 512 it is 65536, with `n = 128`. -/
theorem oversized_reassembly (init : tapi_ip_frag_spec) (F : Int) (hF : 0 < F)
    (h8 : F % 8 = 0) :
    PKT_LEN_of F = (0x1FFF * 8 / F + 1) * F
      ∧ (plan init (PKT_LEN_of F) F).getLast?.map (fun s => s.real_offset + s.real_length)
          = some (PKT_LEN_of F)
      ∧ PKT_LEN_of F % F = 0
      ∧ 65535 < PKT_LEN_of F
      ∧ PKT_LEN_of 512 = 65536
      ∧ frag_count (PKT_LEN_of 512) 512 = 128 := by
  have hq : 0 ≤ (65528 : Int) / F := Int.ediv_nonneg (by norm_num) (le_of_lt hF)
  have hL := PKT_LEN_of_eq hF
  have hLpos := PKT_LEN_of_pos hF
  have hn := frag_count_PKT_LEN_of hF
  have hmod : PKT_LEN_of F % F = 0 := by rw [hL]; exact Int.mul_emod_left _ _
  refine ⟨by rw [hL]; norm_num, ?_, hmod, ?_, by decide, by decide⟩
  · have hidx : (((frag_count (PKT_LEN_of F) F).toNat - 1 : Nat) : Int) = 65528 / F := by
      rw [hn]; omega
    have hprod : (65528 : Int) / F * F ≤ 65528 := by
      have h1 : (65528 : Int) % F + F * (65528 / F) = 65528 := Int.emod_add_ediv 65528 F
      have h2 : 0 ≤ (65528 : Int) % F := Int.emod_nonneg _ (ne_of_gt hF)
      linarith
    have hoff := spec_at_real_offset init (PKT_LEN_of F) F
      ((frag_count (PKT_LEN_of F) F).toNat - 1)
      (by rw [hidx]; exact mul_nonneg hq (le_of_lt hF)) (by rw [hidx]; linarith)
    rw [plan_getLast init _ _ (by rw [hn]; omega), Option.map_some', hoff,
      spec_at_real_length, hidx, hn, if_neg (by omega), tmod_of_pos hLpos hF, if_pos hmod, hL]
    congr 1
    ring
  · have h1 : (65528 : Int) % F + F * (65528 / F) = 65528 := Int.emod_add_ediv 65528 F
    have h2 : 0 ≤ (65528 : Int) % F := Int.emod_nonneg _ (ne_of_gt hF)
    have h3 : (65528 : Int) % F < F := Int.emod_lt_of_pos _ hF
    have h4 : (65528 : Int) % F % 8 = 0 := by
      rw [Int.emod_emod_of_dvd _ (Int.dvd_of_emod_eq_zero h8)]
      decide
    have h5 : PKT_LEN_of F = F * (65528 / F) + F := by rw [hL]; ring
    generalize F * (65528 / F) = p at h1 h5
    generalize (65528 : Int) % F = r at h1 h2 h3 h4
    omega

theorem oversized_reassembly_witness :
    (0 : Int) < 24 ∧ (24 : Int) % 8 = 0 ∧ 65535 < PKT_LEN_of 24 :=
  ⟨by decide, by decide,
    (oversized_reassembly ⟨0, 0, 0, 0, false, false, -1⟩ 24 (by decide) (by decide)).2.2.2.1⟩

theorem create_template_zero_chunk (e : tmpl_env) (L : Int) (type : pkt_type) :
    create_template e L 0 type = Except.error "division by zero" := by
  simp [create_template, bind, Except.bind]

/-! ## No validation of the offset field -/

/-- C8, as the spec states it, fails: for the program's own `L = 65536` and
`C = 512` the value `ceil(L / C) * C / 8` is 8192, above `0x1FFF`, and
`create_template` still returns a template with the plan of 128 specs. -/
theorem offset_validation_refuted :
    0x1FFF < (PKT_LEN + FRAG_LEN - 1) / FRAG_LEN * FRAG_LEN / 8
      ∧ (create_template (env_ok 7 9) PKT_LEN FRAG_LEN pkt_type.PKT_UDP).toOption.map
          (fun t => t.fragments.length) = some 128 := by
  refine ⟨by decide, ?_⟩
  have h : (plan (env_ok 7 9).frag_init PKT_LEN FRAG_LEN).length = 128 := by
    rw [plan_length, frag_count_program]; rfl
  have hC : FRAG_LEN ≠ 0 := by decide
  simp [create_template, env_ok, bind, Except.bind, pure, Except.pure, Except.toOption,
    hC] at h ⊢
  exact h

/-- C8, amended. `create_template` does not validate the offset field: for
every `L` with `0 < L < INT_MAX` and every `C > 0` for which
`ceil(L / C) * C / 8` exceeds `0x1FFF`, as it does with 8192 for the
program's own `L = 65536` and `C = 512`, it does not fail with a
configuration error but produces the plan of `n` specs and returns the
template holding it, whenever the allocation and the library calls
succeed. -/
theorem create_template_no_offset_check (e : tmpl_env) (L C : Int) (type : pkt_type)
    (hL : 0 < L) (hC : 0 < C) (hb : L < INT_MAX)
    (_hover : 0x1FFF < (L + C - 1) / C * C / 8)
    (hmem : e.calloc_ok (frag_count L C) = true)
    (hdst : e.allocate_port_dst.isSome = true)
    (hsrc : e.allocate_port_src.isSome = true)
    (hmsg : ∀ sp dp sq ak syn ack b, (e.tcp_make_msg sp dp sq ak syn ack b).isSome = true)
    (htmpl : ∀ fr n k pr b, e.ip4_template_rc fr n k pr b = 0)
    (hiter : e.add_iterator_rc 1 PKT_NUM 1 = 0) :
    ∃ t, create_template e L C type = Except.ok t
      ∧ t.fragments = plan e.frag_init L C
      ∧ t.num_frags = frag_count L C
      ∧ (t.fragments.length : Int) = frag_count L C
      ∧ 1 ≤ frag_count L C := by
  have hC0 : C ≠ 0 := ne_of_gt hC
  obtain ⟨hn1, _, _⟩ := frag_count_bounds hL hC (quot_lt_of_lt hL hC hb)
  have hlen : ((plan e.frag_init L C).length : Int) = frag_count L C := by
    rw [plan_length]
    exact Int.toNat_of_nonneg (by omega)
  have hok : create_template e L C type = Except.ok
      { fragments := plan e.frag_init L C, num_frags := frag_count L C, third := 1,
        protocol := (if type = pkt_type.PKT_UDP then IPPROTO_UDP
          else if type = pkt_type.PKT_ICMP then IPPROTO_ICMP else IPPROTO_TCP),
        payload := (match type with
          | pkt_type.PKT_TCP_SYN =>
            ((e.allocate_port_dst.bind fun dp => e.allocate_port_src.bind fun sp =>
              e.tcp_make_msg sp dp 0 0 true false (List.replicate BUF_SIZE 0)).getD [])
          | pkt_type.PKT_TCP_DATA =>
            (e.tcp_make_msg e.tst_fake_addr_port e.iut_addr_port e.next_seqn e.next_ackn
              false false (List.replicate BUF_SIZE 0)).getD []
          | pkt_type.PKT_UDP => udp_stub e L (List.replicate BUF_SIZE 0)
          | pkt_type.PKT_ICMP => icmp_stub e (List.replicate BUF_SIZE 0)),
        iter_begin := 1, iter_end := PKT_NUM, iter_step := 1 } := by
    obtain ⟨dp, hdp⟩ := Option.isSome_iff_exists.mp hdst
    obtain ⟨sp, hsp⟩ := Option.isSome_iff_exists.mp hsrc
    cases type
    · simp [create_template, bind, Except.bind, pure, Except.pure, hmem, htmpl, hiter, hC0]
    · obtain ⟨b, hb2⟩ := Option.isSome_iff_exists.mp
        (hmsg sp dp 0 0 true false (List.replicate BUF_SIZE 0))
      simp [create_template, bind, Except.bind, pure, Except.pure, hmem, htmpl, hiter,
        hdp, hsp, hb2, CHECK_RC, hC0]
    · obtain ⟨b, hb2⟩ := Option.isSome_iff_exists.mp
        (hmsg e.tst_fake_addr_port e.iut_addr_port e.next_seqn e.next_ackn false false
          (List.replicate BUF_SIZE 0))
      simp [create_template, bind, Except.bind, pure, Except.pure, hmem, htmpl, hiter,
        hb2, CHECK_RC, hC0]
    · simp [create_template, bind, Except.bind, pure, Except.pure, hmem, htmpl, hiter, hC0]
  exact ⟨_, hok, rfl, rfl, hlen, hn1⟩

theorem create_template_no_offset_check_witness :
    (0 : Int) < PKT_LEN ∧ (0 : Int) < FRAG_LEN ∧ PKT_LEN < INT_MAX
      ∧ 0x1FFF < (PKT_LEN + FRAG_LEN - 1) / FRAG_LEN * FRAG_LEN / 8
      ∧ ∃ t, create_template (env_ok 7 9) PKT_LEN FRAG_LEN pkt_type.PKT_TCP_SYN = Except.ok t
        ∧ t.fragments = plan (env_ok 7 9).frag_init PKT_LEN FRAG_LEN
        ∧ t.num_frags = frag_count PKT_LEN FRAG_LEN
        ∧ (t.fragments.length : Int) = frag_count PKT_LEN FRAG_LEN
        ∧ 1 ≤ frag_count PKT_LEN FRAG_LEN :=
  ⟨by decide, by decide, by decide, by decide,
    create_template_no_offset_check (env_ok 7 9) PKT_LEN FRAG_LEN pkt_type.PKT_TCP_SYN
      (by decide) (by decide) (by decide) (by decide)
      rfl rfl rfl (fun _ _ _ _ _ _ _ => rfl) (fun _ _ _ _ _ => rfl) rfl⟩

/-- C9. For every positive `FRAG_LEN`, every spec of the plan built for
`L = PKT_LEN` has a `hdr_offset` that is not negative and, in units of eight
bytes, at most `0x1FFF`; for the program's 512 the last offset is 65024,
that is 8128 units. -/
theorem offsets_fit_field (init : tapi_ip_frag_spec) (F : Int) (hF : 0 < F) :
    (∀ s ∈ plan init (PKT_LEN_of F) F, 0 ≤ s.hdr_offset ∧ Int.tdiv s.hdr_offset 8 ≤ 0x1FFF)
      ∧ (plan init PKT_LEN FRAG_LEN).getLast?.map
          (fun s => (s.hdr_offset, Int.tdiv s.hdr_offset 8)) = some (65024, 8128) := by
  constructor
  · intro s hs
    rw [plan_closed, frag_count_PKT_LEN_of hF] at hs
    obtain ⟨i, hi, rfl⟩ := List.mem_map.mp hs
    rw [List.mem_range] at hi
    have hq : 0 ≤ (65528 : Int) / F := Int.ediv_nonneg (by norm_num) (le_of_lt hF)
    have hiq : (i : Int) ≤ 65528 / F := by omega
    have h1 : (65528 : Int) % F + F * (65528 / F) = 65528 := Int.emod_add_ediv 65528 F
    have h2 : 0 ≤ (65528 : Int) % F := Int.emod_nonneg _ (ne_of_gt hF)
    have h0 : 0 ≤ (i : Int) * F := mul_nonneg (Int.ofNat_nonneg i) (le_of_lt hF)
    have hle : (i : Int) * F ≤ 65528 := by
      have : (i : Int) * F ≤ 65528 / F * F := mul_le_mul_of_nonneg_right hiq (le_of_lt hF)
      linarith
    rw [spec_at_hdr_offset init _ _ i h0 (by omega)]
    refine ⟨h0, ?_⟩
    rw [Int.tdiv_eq_ediv h0 (by norm_num)]
    omega
  · rw [plan_getLast init _ _ (by rw [frag_count_program]; decide), Option.map_some',
      frag_count_program]
    rfl

theorem offsets_fit_field_witness :
    (0 : Int) < 512
      ∧ (⟨65024, 65024, 532, 512, false, false, -1⟩ : tapi_ip_frag_spec)
          ∈ plan ⟨0, 0, 0, 0, false, false, -1⟩ (PKT_LEN_of 512) 512
      ∧ Int.tdiv 65024 8 ≤ 0x1FFF :=
  ⟨by decide, by decide,
    ((offsets_fit_field ⟨0, 0, 0, 0, false, false, -1⟩ 512 (by decide)).1
      ⟨65024, 65024, 532, 512, false, false, -1⟩ (by decide)).2⟩

/-! ## The UDP stub -/

/-- C10, as the spec states it, fails: the length field of the UDP stub
decodes to 0, not to the declared post-reassembly length 65536. -/
theorem udp_length_field_refuted :
    (create_template (env_ok 0x1234 0x5678) PKT_LEN FRAG_LEN pkt_type.PKT_UDP).toOption.map
        (fun t => ((decode_be16 t.payload 4 : Nat) : Int)) = some 0
      ∧ PKT_LEN ≠ 0 := by
  refine ⟨?_, by decide⟩
  simp [create_template, env_ok, bind, Except.bind, pure, Except.pure, Except.toOption]
  decide

/-- C10, amended. For every pair of ports and either byte order of the host,
the 64-byte stub built by `create_template(PKT_UDP)` has the source port in
bytes 0-1, the destination port in bytes 2-3, and a length field (bytes 4-5,
big-endian) holding the low 16 bits of the declared post-reassembly length
`PKT_LEN`, which are 0 for `PKT_LEN = 65536`; all other bytes are zero. -/
theorem udp_stub_bytes (e : tmpl_env)
    (hmem : e.calloc_ok (frag_count PKT_LEN FRAG_LEN) = true)
    (htmpl : ∀ fr n k pr b, e.ip4_template_rc fr n k pr b = 0)
    (hiter : e.add_iterator_rc 1 PKT_NUM 1 = 0) :
    ∃ t, create_template e PKT_LEN FRAG_LEN pkt_type.PKT_UDP = Except.ok t
      ∧ t.payload.length = 64
      ∧ load16 e.host_big_endian t.payload 0 = e.tst_addr_port % 65536
      ∧ load16 e.host_big_endian t.payload 2 = e.iut_addr_port % 65536
      ∧ ((decode_be16 t.payload 4 : Nat) : Int) = PKT_LEN % 65536
      ∧ decode_be16 t.payload 4 = 0
      ∧ t.payload.drop 6 = List.replicate 58 0 := by
  have hct : create_template e PKT_LEN FRAG_LEN pkt_type.PKT_UDP = Except.ok
      { fragments := plan e.frag_init PKT_LEN FRAG_LEN,
        num_frags := frag_count PKT_LEN FRAG_LEN, third := 1, protocol := IPPROTO_UDP,
        payload := udp_stub e PKT_LEN (List.replicate BUF_SIZE 0), iter_begin := 1,
        iter_end := PKT_NUM, iter_step := 1 } := by
    have hC : FRAG_LEN ≠ 0 := by decide
    simp [create_template, bind, Except.bind, pure, Except.pure, hmem, htmpl, hiter, hC]
  refine ⟨_, hct, ?_⟩
  show (udp_stub e PKT_LEN (List.replicate BUF_SIZE 0)).length = 64 ∧ _
  rw [udp_stub_eq]
  have hmod : PKT_LEN % 65536 = 0 := by decide
  rw [hmod]
  cases e.host_big_endian
  · refine ⟨rfl, ?_, ?_, rfl, rfl, rfl⟩
    · show e.tst_addr_port / 256 % 256 * 256 + e.tst_addr_port % 256 = _
      omega
    · show e.iut_addr_port / 256 % 256 * 256 + e.iut_addr_port % 256 = _
      omega
  · refine ⟨rfl, ?_, ?_, rfl, rfl, rfl⟩
    · show e.tst_addr_port / 256 % 256 * 256 + e.tst_addr_port % 256 = _
      omega
    · show e.iut_addr_port / 256 % 256 * 256 + e.iut_addr_port % 256 = _
      omega

theorem udp_stub_bytes_witness :
    ∃ t, create_template (env_ok 0x1234 0x5678) PKT_LEN FRAG_LEN pkt_type.PKT_UDP = Except.ok t
      ∧ t.payload.length = 64
      ∧ load16 false t.payload 0 = 0x1234 % 65536
      ∧ load16 false t.payload 2 = 0x5678 % 65536
      ∧ ((decode_be16 t.payload 4 : Nat) : Int) = PKT_LEN % 65536
      ∧ decode_be16 t.payload 4 = 0
      ∧ t.payload.drop 6 = List.replicate 58 0 :=
  udp_stub_bytes (env_ok 0x1234 0x5678) rfl (fun _ _ _ _ _ => rfl) rfl

/-! ## Helper lemmas: the retry loop in closed form -/

theorem run_exhausted (e : loop_env)
    (hw : ∀ k, k < cap e.check_frags → e.world k = attempt.timeout) :
    retry_section e = some ⟨trace_of e (cap e.check_frags),
      test_result.TEST_FAIL "retries to send message are over"⟩ := by
  obtain ⟨cf, seqn, tx, st, world⟩ := e
  cases cf <;> simp only [cap] at hw
  · have h0 := hw 0 (by simp)
    have h1 := hw 1 (by simp)
    have h2 := hw 2 (by simp)
    simp only at h0 h1 h2
    simp [retry_section, from_again, do_while, loop_pass, h0, h1, h2, trace_of, cap]
  · have h0 := hw 0 (by simp)
    have h1 := hw 1 (by simp)
    have h2 := hw 2 (by simp)
    have h3 := hw 3 (by simp)
    have h4 := hw 4 (by simp)
    have h5 := hw 5 (by simp)
    simp only at h0 h1 h2 h3 h4 h5
    simp [retry_section, from_again, do_while, loop_pass, h0, h1, h2, h3, h4, h5, trace_of,
      cap, degrade_calls]

theorem after_loop_eq (e : loop_env) (s : loop_state) :
    after_loop e s
      = ⟨s.trace ++ [action.update_sent_seq 1004], integrity e s.num s.rx_buf⟩ := by
  have hsz : TX_BUF_SIZE = 1004 := by decide
  have hn : Int.toNat 1004 = 1004 := by decide
  unfold after_loop integrity memcmp
  rw [hsz, hn]
  by_cases h1 : s.num = 1004
  · by_cases h2 : List.take 1004 s.rx_buf = List.take 1004 e.tx_buf <;> simp [h1, h2]
  · simp [h1]

theorem run_readable (e : loop_env) (p : Nat) (num : Int) (rx : List Nat)
    (hp : p < cap e.check_frags)
    (hw : ∀ k, k < p → e.world k = attempt.timeout)
    (hr : e.world p = attempt.readable num rx) (hnum : 0 ≤ num) :
    retry_section e = some ⟨trace_of e (p + 1) ++ [action.update_sent_seq 1004],
      integrity e num rx⟩ := by
  have hneg : ¬ num < 0 := not_lt.mpr hnum
  obtain ⟨cf, seqn, tx, st, world⟩ := e
  cases cf <;> simp only [cap] at hp
  · have hp3 : p < 3 := by simpa using hp
    interval_cases p
    · simp only at hr
      simp [retry_section, from_again, do_while, loop_pass, hr, hneg, after_loop_eq,
        trace_of]
    · have h0 := hw 0 (by simp)
      simp only at hr h0
      simp [retry_section, from_again, do_while, loop_pass, hr, h0, hneg, after_loop_eq,
        trace_of]
    · have h0 := hw 0 (by simp)
      have h1 := hw 1 (by simp)
      simp only at hr h0 h1
      simp [retry_section, from_again, do_while, loop_pass, hr, h0, h1, hneg, after_loop_eq,
        trace_of]
  · have hp6 : p < 6 := by simpa using hp
    interval_cases p
    · simp only at hr
      simp [retry_section, from_again, do_while, loop_pass, hr, hneg, after_loop_eq,
        trace_of]
    · have h0 := hw 0 (by simp)
      simp only at hr h0
      simp [retry_section, from_again, do_while, loop_pass, hr, h0, hneg, after_loop_eq,
        trace_of]
    · have h0 := hw 0 (by simp)
      have h1 := hw 1 (by simp)
      simp only at hr h0 h1
      simp [retry_section, from_again, do_while, loop_pass, hr, h0, h1, hneg, after_loop_eq,
        trace_of]
    · have h0 := hw 0 (by simp)
      have h1 := hw 1 (by simp)
      have h2 := hw 2 (by simp)
      simp only at hr h0 h1 h2
      simp [retry_section, from_again, do_while, loop_pass, hr, h0, h1, h2, hneg,
        after_loop_eq, trace_of]
    · have h0 := hw 0 (by simp)
      have h1 := hw 1 (by simp)
      have h2 := hw 2 (by simp)
      have h3 := hw 3 (by simp)
      simp only at hr h0 h1 h2 h3
      simp [retry_section, from_again, do_while, loop_pass, hr, h0, h1, h2, h3, hneg,
        after_loop_eq, trace_of]
    · have h0 := hw 0 (by simp)
      have h1 := hw 1 (by simp)
      have h2 := hw 2 (by simp)
      have h3 := hw 3 (by simp)
      have h4 := hw 4 (by simp)
      simp only at hr h0 h1 h2 h3 h4
      simp [retry_section, from_again, do_while, loop_pass, hr, h0, h1, h2, h3, h4, hneg,
        after_loop_eq, trace_of]

theorem loop_pass_ok (e : loop_env) (s s' : loop_state) (h : loop_pass e s = Except.ok s') :
    s'.retries = s.retries - 1 ∧ s'.again = s.again := by
  unfold loop_pass at h
  split at h
  · cases h
  · cases h
  · cases h; exact ⟨rfl, rfl⟩
  · cases h; exact ⟨rfl, rfl⟩

theorem do_while_total (e : loop_env) :
    ∀ (fuel : Nat) (s : loop_state), s.retries ≤ (fuel : Int) → 0 < fuel →
      do_while e fuel s ≠ loop_exit.out_of_fuel := by
  intro fuel
  induction fuel with
  | zero => intro s _ h; omega
  | succ f ih =>
    intro s hs _
    unfold do_while
    cases hp : loop_pass e s with
    | error r => simp
    | ok s' =>
      have hr := (loop_pass_ok e s s' hp).1
      simp only
      split
      · rename_i hc
        exact ih s' (by push_cast at hs; omega) (by omega)
      · simp

theorem do_while_again (e : loop_env) :
    ∀ (fuel : Nat) (s s' : loop_state), do_while e fuel s = loop_exit.exited s' →
      s'.again = s.again := by
  intro fuel
  induction fuel with
  | zero => intro s s' h; simp [do_while] at h
  | succ f ih =>
    intro s s' h
    unfold do_while at h
    cases hp : loop_pass e s with
    | error r => rw [hp] at h; simp at h
    | ok s1 =>
      have ha := (loop_pass_ok e s s1 hp).2
      rw [hp] at h
      simp only at h
      split at h
      · rw [ih s1 s' h, ha]
      · cases h; exact ha

theorem retry_section_total (e : loop_env) : (retry_section e).isSome = true := by
  unfold retry_section from_again
  simp only
  cases h1 : do_while e 3 _ with
  | out_of_fuel => exact absurd h1 (do_while_total e 3 _ (by simp) (by decide))
  | failed r => rfl
  | exited s1 =>
    simp only
    split
    · split
      · rfl
      · unfold from_again
        simp only
        cases h2 : do_while e 3 _ with
        | out_of_fuel => exact absurd h2 (do_while_total e 3 _ (by simp) (by decide))
        | failed r => rfl
        | exited s2 =>
          have ha := do_while_again e 3 _ s2 h2
          simp only at ha
          simp only
          split
          · simp [ha]
          · rfl
    · rfl

theorem trace_of_facts (e : loop_env) (m : Nat) (hm : m ≤ 6) (next_seq : Nat) :
    transmissions (trace_of e m) = m
      ∧ degrade_cycles (trace_of e m) = (if m ≤ 3 then 0 else 1)
      ∧ commits (trace_of e m) = []
      ∧ sent_seqns (trace_of e m) = List.replicate m e.seqn
      ∧ next_seq_after next_seq (trace_of e m) = next_seq
      ∧ (∀ session, stops_of session (trace_of e m) = (if m ≤ 3 then 0 else 1)) := by
  interval_cases m <;>
    refine ⟨by simp [trace_of, transmissions, the_send, degrade_calls],
      by simp [trace_of, degrade_cycles, the_send, degrade_calls],
      by simp [trace_of, commits, the_send, degrade_calls],
      by simp [trace_of, sent_seqns, the_send, degrade_calls, List.replicate],
      by simp [trace_of, next_seq_after, the_send, degrade_calls], ?_⟩ <;>
    intro session <;> cases session <;>
    simp [trace_of, stops_of, the_send, degrade_calls]

theorem trace_commit_facts (t : List action) (next_seq : Nat) (len : Int) :
    transmissions (t ++ [action.update_sent_seq len]) = transmissions t
      ∧ degrade_cycles (t ++ [action.update_sent_seq len]) = degrade_cycles t
      ∧ commits (t ++ [action.update_sent_seq len]) = commits t ++ [len]
      ∧ sent_seqns (t ++ [action.update_sent_seq len]) = sent_seqns t
      ∧ next_seq_after next_seq (t ++ [action.update_sent_seq len])
          = (next_seq_after next_seq t + len.toNat) % 2 ^ 32 := by
  refine ⟨by simp [transmissions], by simp [degrade_cycles], ?_, ?_, ?_⟩
  · induction t with
    | nil => rfl
    | cons a t ih => cases a <;> simp [commits, ih]
  · induction t with
    | nil => rfl
    | cons a t ih => cases a <;> simp [sent_seqns, ih]
  · induction t generalizing next_seq with
    | nil => rfl
    | cons a t ih => cases a <;> simp [next_seq_after, ih]

/-! ## Helper lemmas: passes that are retried -/

theorem pass_retried (e : loop_env) (s : loop_state)
    (h : retried (e.world s.passes) = true) :
    ∃ s1, loop_pass e s = Except.ok s1 ∧ s1.num < 0 ∧ s1.retries = s.retries - 1
      ∧ s1.again = s.again ∧ s1.passes = s.passes + 1
      ∧ s1.trace = s.trace ++ [the_send e] := by
  unfold loop_pass
  cases hw : e.world s.passes with
  | send_failed => rw [hw] at h; cases h
  | poll_failed => rw [hw] at h; cases h
  | timeout => exact ⟨_, rfl, show (-1 : Int) < 0 by decide, rfl, rfl, rfl, rfl⟩
  | readable num rx =>
    rw [hw] at h
    have hneg : num < 0 := by simpa [retried] using h
    exact ⟨_, rfl, hneg, rfl, rfl, rfl, rfl⟩

theorem pass_received (e : loop_env) (s : loop_state) (num : Int) (rx : List Nat)
    (h : e.world s.passes = attempt.readable num rx) :
    ∃ s1, loop_pass e s = Except.ok s1 ∧ s1.num = num ∧ s1.rx_buf = rx
      ∧ s1.again = s.again ∧ s1.trace = s.trace ++ [the_send e] := by
  unfold loop_pass
  rw [h]
  exact ⟨_, rfl, rfl, rfl, rfl, rfl⟩

theorem cycle_retried (e : loop_env) :
    ∀ (m fuel : Nat) (s : loop_state), s.retries = (m : Int) + 1 → m < fuel →
      (∀ j, j ≤ m → retried (e.world (s.passes + j)) = true) →
      ∃ s1, do_while e fuel s = loop_exit.exited s1 ∧ s1.retries = 0 ∧ s1.num < 0
        ∧ s1.again = s.again ∧ s1.passes = s.passes + (m + 1)
        ∧ s1.trace = s.trace ++ List.replicate (m + 1) (the_send e) := by
  intro m
  induction m with
  | zero =>
    intro fuel s hs hf hw
    obtain ⟨f, rfl⟩ : ∃ f, fuel = f + 1 := ⟨fuel - 1, by omega⟩
    obtain ⟨s1, hp, hnum, hret, hag, hpas, htr⟩ := pass_retried e s (by simpa using hw 0 (le_refl 0))
    refine ⟨s1, ?_, by omega, hnum, hag, hpas, by simpa using htr⟩
    rw [do_while, hp]
    simp only
    rw [if_neg (by omega)]
  | succ m ih =>
    intro fuel s hs hf hw
    obtain ⟨f, rfl⟩ : ∃ f, fuel = f + 1 := ⟨fuel - 1, by omega⟩
    obtain ⟨s1, hp, hnum, hret, hag, hpas, htr⟩ := pass_retried e s (by simpa using hw 0 (by omega))
    obtain ⟨s2, hd, h0, hn2, hag2, hpas2, htr2⟩ := ih f s1 (by push_cast at hs; omega) (by omega)
      (fun j hj => by
        have := hw (j + 1) (by omega)
        rw [hpas]
        rwa [show s.passes + 1 + j = s.passes + (j + 1) by omega])
    refine ⟨s2, ?_, h0, hn2, by rw [hag2, hag], by omega, ?_⟩
    · rw [do_while, hp]
      simp only
      rw [if_pos ⟨hnum, by push_cast at hs; omega⟩]
      exact hd
    · rw [htr2, htr, List.append_assoc]
      rfl

theorem cycle_received (e : loop_env) (num : Int) (rx : List Nat) (hnum : 0 ≤ num) :
    ∀ (j fuel : Nat) (s : loop_state), (j : Int) < s.retries → j < fuel →
      (∀ k, k < j → retried (e.world (s.passes + k)) = true) →
      e.world (s.passes + j) = attempt.readable num rx →
      ∃ s1, do_while e fuel s = loop_exit.exited s1 ∧ s1.num = num ∧ s1.rx_buf = rx
        ∧ s1.again = s.again
        ∧ s1.trace = s.trace ++ List.replicate (j + 1) (the_send e) := by
  intro j
  induction j with
  | zero =>
    intro fuel s _ hf _ hr
    obtain ⟨f, rfl⟩ : ∃ f, fuel = f + 1 := ⟨fuel - 1, by omega⟩
    obtain ⟨s1, hp, hn, hrx, hag, htr⟩ := pass_received e s num rx (by simpa using hr)
    refine ⟨s1, ?_, hn, hrx, hag, by simpa using htr⟩
    rw [do_while, hp]
    simp only
    rw [if_neg (by omega)]
  | succ j ih =>
    intro fuel s hs hf hw hr
    obtain ⟨f, rfl⟩ : ∃ f, fuel = f + 1 := ⟨fuel - 1, by omega⟩
    obtain ⟨s1, hp, hneg, hret, hag, hpas, htr⟩ :=
      pass_retried e s (by simpa using hw 0 (by omega))
    obtain ⟨s2, hd, hn2, hrx2, hag2, htr2⟩ := ih f s1 (by push_cast at hs; omega) (by omega)
      (fun k hk => by
        have := hw (k + 1) (by omega)
        rw [hpas]
        rwa [show s.passes + 1 + k = s.passes + (k + 1) by omega])
      (by
        rw [hpas]
        rwa [show s.passes + 1 + j = s.passes + (j + 1) by omega])
    refine ⟨s2, ?_, hn2, hrx2, by rw [hag2, hag], ?_⟩
    · rw [do_while, hp]
      simp only
      rw [if_pos ⟨hneg, by push_cast at hs; omega⟩]
      exact hd
    · rw [htr2, htr, List.append_assoc]
      rfl

theorem from_again_fail (e : loop_env) (inner fuel : Nat) (s s1 : loop_state)
    (hd : do_while e inner { s with retries := 3 } = loop_exit.exited s1)
    (h0 : s1.retries = 0) (hn : s1.num < 0)
    (hc : e.check_frags = false ∨ s1.again = true) :
    from_again e inner (fuel + 1) s
      = some ⟨s1.trace, test_result.TEST_FAIL "retries to send message are over"⟩ := by
  rw [from_again]
  simp only [hd]
  rw [if_pos ⟨h0, hn⟩, if_pos]
  rcases hc with h | h <;> simp [h]

theorem from_again_degrade (e : loop_env) (inner fuel : Nat) (s s1 : loop_state)
    (hd : do_while e inner { s with retries := 3 } = loop_exit.exited s1)
    (h0 : s1.retries = 0) (hn : s1.num < 0)
    (hc : e.check_frags = true) (ha : s1.again = false) :
    from_again e inner (fuel + 1) s
      = from_again e inner fuel
          { s1 with trace := s1.trace ++ degrade_calls, num := e.stopped, again := true } := by
  rw [from_again]
  simp only [hd]
  rw [if_pos ⟨h0, hn⟩, if_neg (by simp [hc, ha])]

theorem from_again_done (e : loop_env) (inner fuel : Nat) (s s1 : loop_state)
    (hd : do_while e inner { s with retries := 3 } = loop_exit.exited s1)
    (hn : 0 ≤ s1.num) :
    from_again e inner (fuel + 1) s
      = some ⟨s1.trace ++ [action.update_sent_seq 1004], integrity e s1.num s1.rx_buf⟩ := by
  rw [from_again]
  simp only [hd]
  rw [if_neg (by omega), after_loop_eq]

theorem run_exhausted_gen (e : loop_env)
    (hw : ∀ k, k < cap e.check_frags → retried (e.world k) = true) :
    retry_section e = some ⟨trace_of e (cap e.check_frags),
      test_result.TEST_FAIL "retries to send message are over"⟩ := by
  unfold retry_section
  obtain ⟨s1, hd1, h01, hn1, ha1, hp1, ht1⟩ := cycle_retried e 2 3
    { retries := 3, num := 0, rx_buf := List.replicate TX_BUF_SIZE.toNat 0,
      again := false, passes := 0, trace := [] } rfl (by decide)
    (fun j hj => hw _ (by
      show 0 + j < cap e.check_frags
      unfold cap
      split <;> omega))
  have hp1x : s1.passes = 3 := hp1
  cases hcf : e.check_frags with
  | false =>
    rw [from_again_fail e 3 1 _ s1 hd1 h01 hn1 (Or.inl hcf), ht1]
    simp [trace_of, cap]
  | true =>
    rw [from_again_degrade e 3 1 _ s1 hd1 h01 hn1 hcf ha1]
    obtain ⟨s2, hd2, h02, hn2, ha2, _, ht2⟩ := cycle_retried e 2 3
      { s1 with trace := s1.trace ++ degrade_calls, num := e.stopped, again := true,
                retries := 3 } rfl (by decide)
      (fun j hj => hw _ (by
        show s1.passes + j < cap e.check_frags
        rw [hp1x, hcf]
        unfold cap
        simp only [if_true]
        omega))
    rw [from_again_fail e 3 0 _ s2 hd2 h02 hn2 (Or.inr ha2), ht2]
    simp [trace_of, cap, ht1]

theorem run_received_gen (e : loop_env) (p : Nat) (num : Int) (rx : List Nat)
    (hp : p < cap e.check_frags)
    (hw : ∀ k, k < p → retried (e.world k) = true)
    (hr : e.world p = attempt.readable num rx) (hnum : 0 ≤ num) :
    retry_section e = some ⟨trace_of e (p + 1) ++ [action.update_sent_seq 1004],
      integrity e num rx⟩ := by
  unfold retry_section
  by_cases h3 : p < 3
  · obtain ⟨s1, hd1, hn1, hrx1, _, ht1⟩ := cycle_received e num rx hnum p 3
      { retries := 3, num := 0, rx_buf := List.replicate TX_BUF_SIZE.toNat 0,
        again := false, passes := 0, trace := [] } (by
        show (p : Int) < 3
        omega) h3
      (fun k hk => by
        show retried (e.world (0 + k)) = true
        rw [Nat.zero_add]
        exact hw k hk)
      (by
        show e.world (0 + p) = _
        rw [Nat.zero_add]
        exact hr)
    rw [from_again_done e 3 1 _ s1 hd1 (by omega), hn1, hrx1, ht1]
    simp [trace_of, show p + 1 ≤ 3 by omega]
  · have hcf : e.check_frags = true := by
      cases h : e.check_frags with
      | true => rfl
      | false =>
        rw [h] at hp
        simp [cap] at hp
        omega
    have hp6 : p < 6 := by
      rw [hcf] at hp
      simpa [cap] using hp
    obtain ⟨s1, hd1, h01, hneg1, ha1, hp1, ht1⟩ := cycle_retried e 2 3
      { retries := 3, num := 0, rx_buf := List.replicate TX_BUF_SIZE.toNat 0,
        again := false, passes := 0, trace := [] } rfl (by decide)
      (fun j hj => by
        show retried (e.world (0 + j)) = true
        rw [Nat.zero_add]
        exact hw j (by omega))
    have hp1x : s1.passes = 3 := hp1
    rw [from_again_degrade e 3 1 _ s1 hd1 h01 hneg1 hcf ha1]
    obtain ⟨s2, hd2, hn2, hrx2, _, ht2⟩ := cycle_received e num rx hnum (p - 3) 3
      { s1 with trace := s1.trace ++ degrade_calls, num := e.stopped, again := true,
                retries := 3 } (by
        show ((p - 3 : Nat) : Int) < 3
        omega) (by omega)
      (fun k hk => by
        show retried (e.world (s1.passes + k)) = true
        rw [hp1x]
        exact hw _ (by omega))
      (by
        show e.world (s1.passes + (p - 3)) = _
        rw [hp1x, show 3 + (p - 3) = p by omega]
        exact hr)
    rw [from_again_done e 3 0 _ s2 hd2 (by omega), hn2, hrx2, ht2]
    simp [trace_of, show ¬ p + 1 ≤ 3 by omega, ht1, show p - 3 + 1 = p + 1 - 3 by omega]

theorem not_received_retried (a : attempt)
    (ha : a = attempt.timeout ∨ ∃ num rx, a = attempt.readable num rx)
    (h : received a = false) : retried a = true := by
  rcases ha with rfl | ⟨num, rx, rfl⟩
  · rfl
  · simp only [received, decide_eq_false_iff_not] at h
    simp only [retried, decide_eq_true_eq]
    omega

theorem received_readable (a : attempt) (h : received a = true) :
    ∃ num rx, a = attempt.readable num rx ∧ 0 ≤ num := by
  cases a with
  | readable num rx => exact ⟨num, rx, rfl, by simpa [received] using h⟩
  | send_failed => cases h
  | poll_failed => cases h
  | timeout => cases h

theorem run_cases_gen (e : loop_env)
    (hw : ∀ k, e.world k = attempt.timeout ∨ ∃ num rx, e.world k = attempt.readable num rx) :
    ((∀ k, k < cap e.check_frags → received (e.world k) = false)
        ∧ retry_section e = some ⟨trace_of e (cap e.check_frags),
            test_result.TEST_FAIL "retries to send message are over"⟩)
      ∨ ∃ p num rx, p < cap e.check_frags ∧ received (e.world p) = true
          ∧ (∀ k, k < p → received (e.world k) = false)
          ∧ e.world p = attempt.readable num rx ∧ 0 ≤ num
          ∧ retry_section e = some ⟨trace_of e (p + 1) ++ [action.update_sent_seq 1004],
              integrity e num rx⟩ := by
  by_cases hall : ∀ k, k < cap e.check_frags → received (e.world k) = false
  · exact Or.inl ⟨hall, run_exhausted_gen e
      (fun k hk => not_received_retried _ (hw k) (hall k hk))⟩
  · have hex : ∃ p, p < cap e.check_frags ∧ received (e.world p) = true := by
      by_contra hc
      apply hall
      intro k hk
      by_contra hne
      exact hc ⟨k, hk, by simpa using hne⟩
    classical
    have hp := Nat.find_spec hex
    have hmin : ∀ k, k < Nat.find hex → received (e.world k) = false := by
      intro k hk
      by_contra hne
      exact Nat.find_min hex hk ⟨lt_trans hk hp.1, by simpa using hne⟩
    obtain ⟨num, rx, hr, hnum⟩ := received_readable _ hp.2
    exact Or.inr ⟨_, num, rx, hp.1, hp.2, hmin, hr, hnum,
      run_received_gen e _ num rx hp.1
        (fun k hk => not_received_retried _ (hw k) (hmin k hk)) hr hnum⟩

theorem icmp_stub_eq (e : tmpl_env)
    (hcs : e.calculate_checksum = ones_complement_sum e.host_big_endian) :
    icmp_stub e (List.replicate BUF_SIZE 0) = [8, 0, 22, 0] ++ List.range' 4 60 := by
  unfold icmp_stub
  rw [hcs]
  cases e.host_big_endian <;> decide

/-! ## The ICMP stub -/

/-- C11. With `calculate_checksum` the folded one's-complement sum of the
16-bit words of the buffer, the 64-byte stub built by
`create_template(PKT_ICMP)` is an Echo Request with a correct checksum:
byte 0 is 8, byte 1 is 0, byte `i` is `i` for `4 ≤ i < 64`, and the
one's-complement sum over all 32 words of the stub, the stored checksum
included, is `0xFFFF`.  This holds whatever the values of the macros, as
long as `FRAG_LEN` is not zero. -/
theorem icmp_stub_wellformed (e : tmpl_env) (L C : Int) (hC : C ≠ 0)
    (hcs : e.calculate_checksum = ones_complement_sum e.host_big_endian)
    (hmem : e.calloc_ok (frag_count L C) = true)
    (htmpl : ∀ fr n k pr b, e.ip4_template_rc fr n k pr b = 0)
    (hiter : e.add_iterator_rc 1 PKT_NUM 1 = 0) :
    ∃ t, create_template e L C pkt_type.PKT_ICMP = Except.ok t
      ∧ t.protocol = IPPROTO_ICMP
      ∧ t.payload.length = 64
      ∧ t.payload.getD 0 0 = 8
      ∧ t.payload.getD 1 0 = 0
      ∧ (∀ i, i < 64 → 4 ≤ i → t.payload.getD i 0 = i)
      ∧ ones_complement_sum e.host_big_endian t.payload = 0xFFFF := by
  have hct : create_template e L C pkt_type.PKT_ICMP = Except.ok
      { fragments := plan e.frag_init L C,
        num_frags := frag_count L C, third := 1, protocol := IPPROTO_ICMP,
        payload := icmp_stub e (List.replicate BUF_SIZE 0), iter_begin := 1,
        iter_end := PKT_NUM, iter_step := 1 } := by
    simp [create_template, bind, Except.bind, pure, Except.pure, hmem, htmpl, hiter, hC]
  have hsum : ∀ be : Bool,
      ones_complement_sum be ([8, 0, 22, 0] ++ List.range' 4 60) = 0xFFFF := by decide
  refine ⟨_, hct, rfl, ?_⟩
  simp only [icmp_stub_eq e hcs]
  exact ⟨by decide, by decide, by decide, by decide, hsum _⟩

theorem icmp_stub_wellformed_witness :
    ∃ t, create_template (env_cksum true) PKT_LEN FRAG_LEN pkt_type.PKT_ICMP = Except.ok t
      ∧ t.protocol = IPPROTO_ICMP
      ∧ t.payload.length = 64
      ∧ t.payload.getD 0 0 = 8
      ∧ t.payload.getD 1 0 = 0
      ∧ (∀ i, i < 64 → 4 ≤ i → t.payload.getD i 0 = i)
      ∧ ones_complement_sum true t.payload = 0xFFFF :=
  icmp_stub_wellformed (env_cksum true) PKT_LEN FRAG_LEN (by decide) rfl rfl
    (fun _ _ _ _ _ => rfl) rfl

/-! ## The retry loop -/

/-- C12. With retry budget 3, `check_frags = TRUE` and a poll that always
times out, the loop of `main` makes exactly 3 transmissions, then one
degrade cycle (the flood sessions UDP, TCP-DATA, TCP-SYN and ICMP are each
stopped once, then the cooldown), then exactly 3 more transmissions, and
ends in failure: 6 transmissions in all. -/
theorem permanent_timeout (seqn : Nat) (tx_buf : List Nat) (stopped : Int) :
    retry_section ⟨true, seqn, tx_buf, stopped, fun _ => attempt.timeout⟩
      = some
        ⟨[action.send_msg 1004 seqn (some main_frags) 2,
          action.send_msg 1004 seqn (some main_frags) 2,
          action.send_msg 1004 seqn (some main_frags) 2,
          action.trsend_stop pkt_type.PKT_UDP,
          action.trsend_stop pkt_type.PKT_TCP_DATA,
          action.trsend_stop pkt_type.PKT_TCP_SYN,
          action.trsend_stop pkt_type.PKT_ICMP,
          action.SLEEP 40,
          action.send_msg 1004 seqn (some main_frags) 2,
          action.send_msg 1004 seqn (some main_frags) 2,
          action.send_msg 1004 seqn (some main_frags) 2],
         test_result.TEST_FAIL "retries to send message are over"⟩
      ∧ (retry_section ⟨true, seqn, tx_buf, stopped, fun _ => attempt.timeout⟩).map
          (fun r => (transmissions r.trace, degrade_cycles r.trace,
            stops_of pkt_type.PKT_UDP r.trace, stops_of pkt_type.PKT_TCP_DATA r.trace,
            stops_of pkt_type.PKT_TCP_SYN r.trace, stops_of pkt_type.PKT_ICMP r.trace))
          = some (6, 1, 1, 1, 1, 1) := by
  have h := run_exhausted ⟨true, seqn, tx_buf, stopped, fun _ => attempt.timeout⟩
    (fun _ _ => rfl)
  have hf := trace_of_facts ⟨true, seqn, tx_buf, stopped, fun _ => attempt.timeout⟩ 6
    (le_refl 6) 0
  have hc : cap true = 6 := rfl
  simp only [hc] at h
  constructor
  · rw [h]
    rfl
  · rw [h, Option.map_some', hf.1, hf.2.1, hf.2.2.2.2.2 pkt_type.PKT_UDP,
      hf.2.2.2.2.2 pkt_type.PKT_TCP_DATA, hf.2.2.2.2.2 pkt_type.PKT_TCP_SYN,
      hf.2.2.2.2.2 pkt_type.PKT_ICMP]
    rfl

/-- C13, as the claim states it, fails: with `check_frags = TRUE`, a first
poll that is readable while its receive returns -1, and timeouts after it,
the loop does not stop at the first readable poll but makes 6
transmissions. -/
theorem readable_poll_retried :
    (retry_section ⟨true, 5, [], 0,
        fun k => if k = 0 then attempt.readable (-1) [] else attempt.timeout⟩).map
      (fun r => transmissions r.trace) = some 6 := by
  decide

/-- C13, amended. For every sequence of poll outcomes, each a timeout or a
readable poll, and either value of `check_frags`, the retry loop ends; it
makes `p` transmissions when the first readable poll whose receive returns a
count (a length that is not negative) is the `p`-th and `p` is at most the
cap (6 with `check_frags`, else 3), and the cap when no pass among the first
cap receives a count; a readable poll whose receive returns a negative value
is retried like a timeout; the loop never makes more transmissions than the
cap, and the degrade cycle runs at most once. -/
theorem bounded_retrying (e : loop_env)
    (hw : ∀ k, e.world k = attempt.timeout ∨ ∃ num rx, e.world k = attempt.readable num rx) :
    ∃ r, retry_section e = some r
      ∧ (∀ p, p < cap e.check_frags → (∀ k, k < p → received (e.world k) = false) →
          received (e.world p) = true → transmissions r.trace = p + 1)
      ∧ ((∀ k, k < cap e.check_frags → received (e.world k) = false) →
          transmissions r.trace = cap e.check_frags)
      ∧ transmissions r.trace ≤ cap e.check_frags
      ∧ degrade_cycles r.trace ≤ 1 := by
  have hcap : cap e.check_frags ≤ 6 := by unfold cap; split <;> omega
  rcases run_cases_gen e hw with ⟨hall, hrun⟩ | ⟨p0, num, rx, hp0, hrec, hmin, _, _, hrun⟩
  · have hf := trace_of_facts e (cap e.check_frags) hcap 0
    refine ⟨_, hrun, ?_, fun _ => hf.1, le_of_eq hf.1, ?_⟩
    · intro p hp _ hr
      rw [hall p hp] at hr
      cases hr
    · simp only [hf.2.1]
      split <;> omega
  · have hf := trace_of_facts e (p0 + 1) (by omega) 0
    have hc := trace_commit_facts (trace_of e (p0 + 1)) 0 1004
    refine ⟨_, hrun, ?_, ?_, ?_, ?_⟩
    · intro p _ hpre hr
      have hpeq : p = p0 := by
        rcases Nat.lt_trichotomy p p0 with h | h | h
        · rw [hmin p h] at hr
          cases hr
        · exact h
        · rw [hpre p0 h] at hrec
          cases hrec
      simp only [hc.1, hf.1, hpeq]
    · intro hall
      rw [hall p0 hp0] at hrec
      cases hrec
    · simp only [hc.1, hf.1]
      omega
    · simp only [hc.2.1, hf.2.1]
      split <;> omega

theorem bounded_retrying_witness :
    ∃ r, retry_section ⟨true, 5, [], 0, fun k => if k = 4 then attempt.readable 3 [] else
        attempt.timeout⟩ = some r
      ∧ transmissions r.trace ≤ 6 ∧ degrade_cycles r.trace ≤ 1 :=
  have h := bounded_retrying
    ⟨true, 5, [], 0, fun k => if k = 4 then attempt.readable 3 [] else attempt.timeout⟩
    (fun k => by
      by_cases hk : k = 4
      · exact Or.inr ⟨3, [], by simp [hk]⟩
      · exact Or.inl (by simp [hk]))
  h.imp (fun _ hr => ⟨hr.1, hr.2.2.2.1, hr.2.2.2.2⟩)

theorem cap_le_six (b : Bool) : cap b ≤ 6 := by
  cases b <;> decide

/-- C14. When `check_frags` is `FALSE` and the first 3 polls all time out,
the retry loop ends in failure right after the third transmission: no flood
session is stopped, there is no cooldown wait and no fourth transmission. -/
theorem no_degrade_when_not_allowed (seqn : Nat) (tx_buf : List Nat) (stopped : Int)
    (world : Nat → attempt) (hw : ∀ k, k < 3 → world k = attempt.timeout) :
    retry_section ⟨false, seqn, tx_buf, stopped, world⟩
      = some
        ⟨[action.send_msg 1004 seqn none 0, action.send_msg 1004 seqn none 0,
          action.send_msg 1004 seqn none 0],
         test_result.TEST_FAIL "retries to send message are over"⟩ := by
  rw [run_exhausted ⟨false, seqn, tx_buf, stopped, world⟩ hw]
  rfl

theorem no_degrade_when_not_allowed_witness :
    retry_section ⟨false, 5, [], 0, fun _ => attempt.timeout⟩
      = some
        ⟨[action.send_msg 1004 5 none 0, action.send_msg 1004 5 none 0,
          action.send_msg 1004 5 none 0],
         test_result.TEST_FAIL "retries to send message are over"⟩ :=
  no_degrade_when_not_allowed 5 [] 0 (fun _ => attempt.timeout) (fun _ _ => rfl)

/-- C15, as the claim states it, fails: with `check_frags = FALSE` and three
polls that are readable while the receive returns -1, a poll was readable,
yet `tapi_tcp_update_sent_seq` is never called and `next_seq` stays where it
was; the run ends in retry exhaustion. -/
theorem readable_without_commit :
    (retry_section ⟨false, 5, [], 0, fun _ => attempt.readable (-1) []⟩).map
      (fun r => (commits r.trace, next_seq_after 5 r.trace, r.result))
      = some ([], 5, test_result.TEST_FAIL "retries to send message are over") := by
  decide

/-- C15, amended. In the retry loop of `main` every transmission carries the
same sequence number, the `seqn` read once before the loop.  On every run in
which a poll of the loop was readable and its receive returned a count (a
length that is not negative) `tapi_tcp_update_sent_seq` is called exactly
once, with 1004, so that `next_seq` ends 1004 above `seqn`; on a run that
ends in retry exhaustion it is not called and `next_seq` is still `seqn`. -/
theorem two_phase_commit (e : loop_env)
    (hw : ∀ k, e.world k = attempt.timeout ∨ ∃ num rx, e.world k = attempt.readable num rx) :
    ∃ r, retry_section e = some r
      ∧ sent_seqns r.trace = List.replicate (transmissions r.trace) e.seqn
      ∧ ((∃ p, p < cap e.check_frags ∧ received (e.world p) = true) →
          commits r.trace = [1004]
          ∧ next_seq_after e.seqn r.trace = (e.seqn + 1004) % 2 ^ 32)
      ∧ ((∀ k, k < cap e.check_frags → received (e.world k) = false) →
          commits r.trace = []
          ∧ next_seq_after e.seqn r.trace = e.seqn
          ∧ r.result = test_result.TEST_FAIL "retries to send message are over")
      ∧ TX_BUF_SIZE = 1004 := by
  have hcap := cap_le_six e.check_frags
  rcases run_cases_gen e hw with ⟨hall, hrun⟩ | ⟨p, num, rx, hp, hrec, _, _, _, hrun⟩
  · have hf := trace_of_facts e (cap e.check_frags) hcap e.seqn
    refine ⟨_, hrun, ?_, ?_, fun _ => ⟨hf.2.2.1, hf.2.2.2.2.1, rfl⟩, by decide⟩
    · simp only [hf.1, hf.2.2.2.1]
    · rintro ⟨q, hq, hr⟩
      rw [hall q hq] at hr
      cases hr
  · have hf := trace_of_facts e (p + 1) (by omega) e.seqn
    have hc := trace_commit_facts (trace_of e (p + 1)) e.seqn 1004
    refine ⟨_, hrun, ?_, fun _ => ⟨?_, ?_⟩, ?_, by decide⟩
    · simp only [hc.1, hc.2.2.2.1, hf.1, hf.2.2.2.1]
    · simp only [hc.2.2.1, hf.2.2.1]
      rfl
    · simp only [hc.2.2.2.2, hf.2.2.2.2.1]
      rfl
    · intro hall
      rw [hall p hp] at hrec
      cases hrec

theorem two_phase_commit_witness :
    ∃ r, retry_section ⟨true, 5, [], 0, fun k => if k = 4 then attempt.readable 3 [] else
        attempt.timeout⟩ = some r
      ∧ sent_seqns r.trace = List.replicate (transmissions r.trace) 5 :=
  have h := two_phase_commit
    ⟨true, 5, [], 0, fun k => if k = 4 then attempt.readable 3 [] else attempt.timeout⟩
    (fun k => by
      by_cases hk : k = 4
      · exact Or.inr ⟨3, [], by simp [hk]⟩
      · exact Or.inl (by simp [hk]))
  h.imp (fun _ hr => ⟨hr.1, hr.2.1⟩)

/-! ## The integrity check -/

/-- C16. When a poll of the retry loop was readable (the `p`-th pass, after
timeouts only, and the receive returned a count), the scenario reaches
`TEST_SUCCESS` if and only if the count is 1004, that is `sizeof(tx_buf)`,
which is `2 * 512 - 20`, and the 1004 received bytes equal the bytes sent;
for every other count or content it ends in failure. -/
theorem integrity_verdict (e : loop_env) (p : Nat) (num : Int) (rx : List Nat)
    (hp : p < cap e.check_frags)
    (hw : ∀ k, k < p → e.world k = attempt.timeout)
    (hr : e.world p = attempt.readable num rx) (hnum : 0 ≤ num) :
    ∃ r, retry_section e = some r
      ∧ (r.result = test_result.TEST_SUCCESS
          ↔ num = 1004 ∧ rx.take 1004 = e.tx_buf.take 1004)
      ∧ (¬ (num = 1004 ∧ rx.take 1004 = e.tx_buf.take 1004) →
          ∃ msg, r.result = test_result.TEST_FAIL msg)
      ∧ TX_BUF_SIZE = 1004 ∧ TX_BUF_SIZE = 2 * 512 - 20 := by
  refine ⟨_, run_readable e p num rx hp hw hr hnum, ?_, ?_, by decide, by decide⟩
  · show integrity e num rx = test_result.TEST_SUCCESS ↔ _
    unfold integrity
    by_cases h1 : num = 1004
    · by_cases h2 : List.take 1004 rx = List.take 1004 e.tx_buf <;> simp [h1, h2]
    · simp [h1]
  · intro hne
    show ∃ msg, integrity e num rx = test_result.TEST_FAIL msg
    unfold integrity
    by_cases h1 : num = 1004
    · have h2 : ¬ List.take 1004 rx = List.take 1004 e.tx_buf := fun h => hne ⟨h1, h⟩
      exact ⟨"Data passed via flooded connection are corrupted", by simp [h1, h2]⟩
    · exact ⟨"Unexpected number of bytes is received", by simp [h1]⟩

theorem integrity_verdict_witness :
    ∃ r, retry_section ⟨true, 5, [1, 2], 0, fun k => if k = 4 then attempt.readable 1004 [1, 2]
        else attempt.timeout⟩ = some r
      ∧ (r.result = test_result.TEST_SUCCESS
          ↔ (1004 : Int) = 1004 ∧ [1, 2].take 1004 = [1, 2].take 1004) :=
  have h := integrity_verdict
    ⟨true, 5, [1, 2], 0, fun k => if k = 4 then attempt.readable 1004 [1, 2]
      else attempt.timeout⟩ 4 1004 [1, 2] (by decide)
    (fun k hk => by
      have hk4 : k ≠ 4 := by omega
      simp [hk4])
    (by simp) (by decide)
  h.imp (fun _ hr => ⟨hr.1, hr.2.1⟩)

/-- C17, as the claim states it, fails: a received length of 1003 and a
content mismatch at the full length end in two different failures, the first
with "Unexpected number of bytes is received", the second with "Data passed
via flooded connection are corrupted". -/
theorem length_mismatch_own_failure :
    (retry_section ⟨true, 5, List.replicate 1004 7, 0,
        fun _ => attempt.readable 1003 (List.replicate 1003 7 ++ [0])⟩).map
      (fun r => r.result)
      = some (test_result.TEST_FAIL "Unexpected number of bytes is received")
      ∧ (retry_section ⟨true, 5, List.replicate 1004 7, 0,
          fun _ => attempt.readable 1004 (List.replicate 1004 9)⟩).map
        (fun r => r.result)
        = some (test_result.TEST_FAIL "Data passed via flooded connection are corrupted")
      ∧ test_result.TEST_FAIL "Unexpected number of bytes is received"
        ≠ test_result.TEST_FAIL "Data passed via flooded connection are corrupted" := by
  refine ⟨?_, ?_, by decide⟩
  · rw [run_received_gen _ 0 1003 (List.replicate 1003 7 ++ [0]) (by decide)
      (fun k hk => absurd hk (Nat.not_lt_zero k)) rfl (by decide)]
    rfl
  · rw [run_received_gen _ 0 1004 (List.replicate 1004 9) (by decide)
      (fun k hk => absurd hk (Nat.not_lt_zero k)) rfl (by decide)]
    decide

/-- C17, amended. When a receive in the retry loop returns a count one byte
off 1004 (1003 or 1005), the scenario makes no further transmission and no
degrade cycle: after the send of that pass it only commits the sequence
number, and it ends with the failure "Unexpected number of bytes is
received" of the integrity check that follows the loop.  That failure is a
verdict of its own: it is neither the "Data passed via flooded connection
are corrupted" failure of a content mismatch nor the failure of retry
exhaustion. -/
theorem length_mismatch_fatal (e : loop_env) (p : Nat) (num : Int) (rx : List Nat)
    (hp : p < cap e.check_frags)
    (hw : ∀ k, k < p → retried (e.world k) = true)
    (hr : e.world p = attempt.readable num rx) (hd : num = 1003 ∨ num = 1005) :
    ∃ r, retry_section e = some r
      ∧ r.trace = trace_of e (p + 1) ++ [action.update_sent_seq 1004]
      ∧ transmissions r.trace = p + 1
      ∧ degrade_cycles r.trace = (if p + 1 ≤ 3 then 0 else 1)
      ∧ r.result = test_result.TEST_FAIL "Unexpected number of bytes is received"
      ∧ r.result
          ≠ test_result.TEST_FAIL "Data passed via flooded connection are corrupted"
      ∧ r.result ≠ test_result.TEST_FAIL "retries to send message are over" := by
  have hnum : 0 ≤ num := by omega
  have hne : num ≠ 1004 := by omega
  have hcap := cap_le_six e.check_frags
  have hf := trace_of_facts e (p + 1) (by omega) 0
  have hc := trace_commit_facts (trace_of e (p + 1)) 0 1004
  have hres : integrity e num rx
      = test_result.TEST_FAIL "Unexpected number of bytes is received" := by
    unfold integrity
    simp [hne]
  refine ⟨_, run_received_gen e p num rx hp hw hr hnum, rfl, ?_, ?_, hres, ?_, ?_⟩
  · simp only [hc.1, hf.1]
  · simp only [hc.2.1, hf.2.1]
  · show integrity e num rx ≠ _
    rw [hres]
    decide
  · show integrity e num rx ≠ _
    rw [hres]
    decide

theorem length_mismatch_fatal_witness :
    ∃ r, retry_section ⟨true, 5, [1, 2], 0, fun k => if k = 4 then attempt.readable 1003 [1, 2]
        else attempt.timeout⟩ = some r
      ∧ transmissions r.trace = 4 + 1
      ∧ r.result = test_result.TEST_FAIL "Unexpected number of bytes is received" :=
  have h := length_mismatch_fatal
    ⟨true, 5, [1, 2], 0, fun k => if k = 4 then attempt.readable 1003 [1, 2]
      else attempt.timeout⟩ 4 1003 [1, 2] (by decide)
    (fun k hk => by
      have hk4 : k ≠ 4 := by omega
      simp [hk4, retried])
    (by simp) (Or.inl rfl)
  h.imp (fun _ hr => ⟨hr.1, hr.2.2.1, hr.2.2.2.2.1⟩)

/-! ## The fragment override of the legitimate segment -/

/-- C19. The two-element override `frags` that `main` passes to
`tapi_tcp_send_msg` when `check_frags` is `TRUE` has the offsets, lengths
and flags of the plan that the loop of `create_template` yields for
`L = 1024` and `C = 512`; its `real_length` values add up to 1024, which is
`sizeof(tx_buf) + TCP_HDR_LEN = 1004 + 20`, and the second fragment starts
where the first ends. -/
theorem fragment_override (init : tapi_ip_frag_spec) (seqn : Nat) (tx_buf : List Nat)
    (stopped : Int) (world : Nat → attempt) :
    the_send ⟨true, seqn, tx_buf, stopped, world⟩
        = action.send_msg 1004 seqn (some main_frags) 2
      ∧ main_frags.length = 2
      ∧ main_frags.map (fun s => (s.hdr_offset, s.real_offset, s.hdr_length, s.real_length,
            s.more_frags, s.dont_frag))
          = (plan init 1024 512).map (fun s => (s.hdr_offset, s.real_offset, s.hdr_length,
              s.real_length, s.more_frags, s.dont_frag))
      ∧ plan ⟨0, 0, 0, 0, false, false, -1⟩ 1024 512 = main_frags
      ∧ (main_frags.map (fun s => s.real_length)).sum = 1024
      ∧ (1024 : Int) = TX_BUF_SIZE + TCP_HDR_LEN
      ∧ TX_BUF_SIZE = 1004 ∧ TCP_HDR_LEN = 20
      ∧ main_frags.map (fun s => (s.real_offset, s.real_offset + s.real_length))
          = [(0, 512), (512, 1024)] := by
  refine ⟨rfl, rfl, ?_, by decide, by decide, by decide, by decide, by decide, by decide⟩
  have hn : frag_count 1024 512 = 2 := by decide
  rw [plan_closed, hn]
  rfl

end Bonk

namespace PipeSockRecv

/-! ## The verdict of `bnbvalue/pipe_sock_recv` -/

/-- C18. Given that all 1024 bytes were written to the pipe and the RPC
server stayed alive, the test reaches `TEST_SUCCESS` if and only if the
receiving function returns a negative value; every non-negative return ends
in failure, and an error number other than `ENOTSOCK` on a negative return
only adds a verdict. -/
theorem pipe_verdict (e : pipe_env) (tx : List Nat) (htx : e.tx_buf = some tx)
    (hrx : e.rx_made = true) (hsent : e.sent = 1024) (halive : e.alive = true) :
    ((main e).passed = true ↔ e.received < 0)
      ∧ (0 ≤ e.received → (main e).passed = false)
      ∧ (e.received < 0 → e.errno ≠ rpc_errno.RPC_ENOTSOCK →
          main e = ⟨[e.func_name ++ "() on the read end of pipe failed with unexpected errno "
            ++ e.errno_text], true⟩)
      ∧ (e.received < 0 → e.errno = rpc_errno.RPC_ENOTSOCK → main e = ⟨[], true⟩) := by
  have hmain : main e =
      if e.received ≥ 0 then
        (if e.received = 0 then
          ⟨[e.func_name ++ "() successeed on the read end of pipe", "No data was read"], false⟩
        else if e.received ≠ 1024 then
          ⟨[e.func_name ++ "() successeed on the read end of pipe",
            "greater than expected was read"], false⟩
        else if memcmp tx e.rx_buf 1024 ≠ 0 then
          ⟨[e.func_name ++ "() successeed on the read end of pipe",
            "Incorrect data was read"], false⟩
        else ⟨[e.func_name ++ "() successeed on the read end of pipe"], false⟩)
      else if e.errno ≠ rpc_errno.RPC_ENOTSOCK then
        ⟨[e.func_name ++ "() on the read end of pipe failed with unexpected errno "
          ++ e.errno_text], true⟩
      else ⟨[], true⟩ := by
    unfold main
    simp only [htx, hrx, hsent, halive, BUF_SIZE]
    simp
  rw [hmain]
  refine ⟨?_, ?_, ?_, ?_⟩
  · by_cases h : e.received ≥ 0
    · rw [if_pos h]
      have : ¬ e.received < 0 := not_lt.mpr h
      split_ifs <;> simp [this]
    · rw [if_neg h]
      have : e.received < 0 := by omega
      split_ifs <;> simp [this]
  · intro h
    rw [if_pos h]
    split_ifs <;> rfl
  · intro h hne
    rw [if_neg (by omega), if_pos hne]
  · intro h heq
    rw [if_neg (by omega), if_neg (by simp [heq])]

theorem pipe_verdict_witness :
    ((main (env_of (-1) (rpc_errno.other 9) [])).passed = true ↔ (-1 : Int) < 0) :=
  (pipe_verdict (env_of (-1) (rpc_errno.other 9) []) (List.replicate 1024 5)
    rfl rfl rfl rfl).1

/-- C20, the code at the failing input: the write is complete and the
receiving function returns 100, less than 1024; the verdict reads "greater
than expected was read", since the word is chosen by `sent < BUF_SIZE`, and
`sent` is `BUF_SIZE` there. -/
theorem size_verdict_at_short_read :
    main (env_of 100 rpc_errno.RPC_ENOTSOCK [])
      = ⟨["recv() successeed on the read end of pipe", "greater than expected was read"],
          false⟩ := by
  decide

end PipeSockRecv
